import Mathlib

/-!
# btc-mars-bridge — shallow embedding and verification

A shallow embedding of the core of the `btc-mars-bridge` atomic-swap
repository: the Bitcoin HTLC module (`src/core/bitcoin-htlc.js`), the
MarsCoin HTLC module together with its in-repo mock library wrapper
(`src/core/marscoin-htlc.js`, `src/core/marscoin-lib-wrapper.js`), the swap
coordinator (`src/core/swap-coordinator.js`, plus its stub variant), and the
configuration defaults (`src/config/index.js`).

Conventions of the embedding:

* A Node.js `Buffer` is a `List Nat` of byte values (`Bytes`).
* JavaScript numbers that carry transaction values and fees are embedded as
  `ℚ` (JavaScript has a single number type and the repository mixes integer
  satoshi values with fractional MarsCoin fees such as `0.001`; every literal
  appearing in the repository is exactly representable, so `ℚ` is faithful
  where integrality and exact arithmetic are at issue).
* Randomness (`crypto.randomBytes`) and the clock (`Date.now()`) are passed
  in as explicit arguments.
* The RPC chain clients are passed in as explicit data: UTXO listings as
  `Option (List Utxo)` (`none` models a client call that threw, which the
  source catches) and `sendRawTransaction` as a function returning
  `Option String` (`none` models a failed/raising broadcast).
* Hash primitives (`crypto.createHash('sha256')`, `'ripemd160'`) are
  implemented in full so that all statements can be evaluated on concrete
  inputs.
-/

/-- Byte strings: a Node.js `Buffer` as its list of byte values. -/
abbrev Bytes := List Nat

/-- Truncation to a 32-bit word, the wrap-around of all hash arithmetic. -/
def u32 (x : Nat) : Nat := x % 4294967296

/-- Bitwise complement on a 32-bit word. -/
def not32 (x : Nat) : Nat := 4294967295 - u32 x

/-- Left rotation of a 32-bit word. -/
def rotl32 (x n : Nat) : Nat :=
  u32 ((u32 x <<< (n % 32)) ||| (u32 x >>> (32 - n % 32)))

/-- Right rotation of a 32-bit word. -/
def rotr32 (x n : Nat) : Nat := rotl32 x (32 - n % 32)

/-- Big-endian 4-byte serialization of a 32-bit word. -/
def u32be (x : Nat) : Bytes :=
  [x >>> 24 % 256, x >>> 16 % 256, x >>> 8 % 256, x % 256]

/-- Little-endian 4-byte serialization of a 32-bit word. -/
def u32le (x : Nat) : Bytes :=
  [x % 256, x >>> 8 % 256, x >>> 16 % 256, x >>> 24 % 256]

/-- Big-endian 8-byte serialization of a 64-bit word. -/
def u64be (x : Nat) : Bytes :=
  [x >>> 56 % 256, x >>> 48 % 256, x >>> 40 % 256, x >>> 32 % 256,
   x >>> 24 % 256, x >>> 16 % 256, x >>> 8 % 256, x % 256]

/-- Little-endian 8-byte serialization of a 64-bit word. -/
def u64le (x : Nat) : Bytes :=
  [x % 256, x >>> 8 % 256, x >>> 16 % 256, x >>> 24 % 256,
   x >>> 32 % 256, x >>> 40 % 256, x >>> 48 % 256, x >>> 56 % 256]

/-- Group a byte string into big-endian 32-bit words (trailing bytes
dropped; inputs are always a multiple of 4 bytes). -/
def bytesToWordsBE : Bytes → List Nat
  | b0 :: b1 :: b2 :: b3 :: rest =>
      (b0 * 16777216 + b1 * 65536 + b2 * 256 + b3) :: bytesToWordsBE rest
  | _ => []

/-- Group a byte string into little-endian 32-bit words. -/
def bytesToWordsLE : Bytes → List Nat
  | b0 :: b1 :: b2 :: b3 :: rest =>
      (b3 * 16777216 + b2 * 65536 + b1 * 256 + b0) :: bytesToWordsLE rest
  | _ => []

/-- Split a byte string into 64-byte blocks (`fuel`-guarded structural
recursion so the definition reduces in the kernel). -/
def blocks64 : Nat → Bytes → List Bytes
  | 0, _ => []
  | _, [] => []
  | fuel + 1, l => l.take 64 :: blocks64 fuel (l.drop 64)

namespace SHA256

/-- The eight SHA-256 initial hash values (FIPS 180-4 §5.3.3). -/
def iv : List Nat :=
  [0x6A09E667, 0xBB67AE85,
   0x3C6EF372, 0xA54FF53A,
   0x510E527F, 0x9B05688C,
   0x1F83D9AB, 0x5BE0CD19]

/-- The 64 SHA-256 round constants (FIPS 180-4 §4.2.2). -/
def kconst : List Nat :=
  [0x428A2F98, 0x71374491, 0xB5C0FBCF, 0xE9B5DBA5,
   0x3956C25B, 0x59F111F1, 0x923F82A4, 0xAB1C5ED5,
   0xD807AA98, 0x12835B01, 0x243185BE, 0x550C7DC3,
   0x72BE5D74, 0x80DEB1FE, 0x9BDC06A7, 0xC19BF174,
   0xE49B69C1, 0xEFBE4786, 0x0FC19DC6, 0x240CA1CC,
   0x2DE92C6F, 0x4A7484AA, 0x5CB0A9DC, 0x76F988DA,
   0x983E5152, 0xA831C66D, 0xB00327C8, 0xBF597FC7,
   0xC6E00BF3, 0xD5A79147, 0x06CA6351, 0x14292967,
   0x27B70A85, 0x2E1B2138, 0x4D2C6DFC, 0x53380D13,
   0x650A7354, 0x766A0ABB, 0x81C2C92E, 0x92722C85,
   0xA2BFE8A1, 0xA81A664B, 0xC24B8B70, 0xC76C51A3,
   0xD192E819, 0xD6990624, 0xF40E3585, 0x106AA070,
   0x19A4C116, 0x1E376C08, 0x2748774C, 0x34B0BCB5,
   0x391C0CB3, 0x4ED8AA4A, 0x5B9CCA4F, 0x682E6FF3,
   0x748F82EE, 0x78A5636F, 0x84C87814, 0x8CC70208,
   0x90BEFFFA, 0xA4506CEB, 0xBEF9A3F7, 0xC67178F2]

/-- The choice function `Ch(x,y,z)`. -/
def ch (x y z : Nat) : Nat := (x &&& y) ^^^ (not32 x &&& z)

/-- The majority function `Maj(x,y,z)`. -/
def maj (x y z : Nat) : Nat := (x &&& y) ^^^ (x &&& z) ^^^ (y &&& z)

/-- Big sigma 0. -/
def bsig0 (x : Nat) : Nat := rotr32 x 2 ^^^ rotr32 x 13 ^^^ rotr32 x 22

/-- Big sigma 1. -/
def bsig1 (x : Nat) : Nat := rotr32 x 6 ^^^ rotr32 x 11 ^^^ rotr32 x 25

/-- Small sigma 0. -/
def ssig0 (x : Nat) : Nat := rotr32 x 7 ^^^ rotr32 x 18 ^^^ (x >>> 3)

/-- Small sigma 1. -/
def ssig1 (x : Nat) : Nat := rotr32 x 17 ^^^ rotr32 x 19 ^^^ (x >>> 10)

/-- SHA-256 padding: `0x80`, zeros to 56 mod 64, 64-bit big-endian bit
length. -/
def pad (msg : Bytes) : Bytes :=
  let len := msg.length
  let zeros := (120 - (len + 1) % 64) % 64
  msg ++ [0x80] ++ List.replicate zeros 0 ++ u64be (8 * len)

/-- One message-schedule extension step: append word `t` from words
`t-2`, `t-7`, `t-15`, `t-16`. -/
def schedStep (w : List Nat) : List Nat :=
  w ++ [u32 (ssig1 (w.getD (w.length - 2) 0) + w.getD (w.length - 7) 0 +
             ssig0 (w.getD (w.length - 15) 0) + w.getD (w.length - 16) 0)]

/-- Iterate the schedule extension. -/
def schedN : Nat → List Nat → List Nat
  | 0, w => w
  | n + 1, w => schedN n (schedStep w)

/-- The working state `(a,b,c,d,e,f,g,h)`. -/
abbrev St := Nat × Nat × Nat × Nat × Nat × Nat × Nat × Nat

/-- One compression round with constant `kt` and schedule word `wt`. -/
def round (st : St) (kw : Nat × Nat) : St :=
  let (a, b, c, d, e, f, g, h) := st
  let t1 := u32 (h + bsig1 e + ch e f g + kw.1 + kw.2)
  let t2 := u32 (bsig0 a + maj a b c)
  (u32 (t1 + t2), a, b, c, u32 (d + t1), e, f, g)

/-- Compress one 64-byte block into the running 8-word state. -/
def compress (st : List Nat) (block : Bytes) : List Nat :=
  let w := schedN 48 (bytesToWordsBE block)
  let s0 := st.getD 0 0
  let s1 := st.getD 1 0
  let s2 := st.getD 2 0
  let s3 := st.getD 3 0
  let s4 := st.getD 4 0
  let s5 := st.getD 5 0
  let s6 := st.getD 6 0
  let s7 := st.getD 7 0
  let r := (kconst.zip w).foldl round (s0, s1, s2, s3, s4, s5, s6, s7)
  [u32 (s0 + r.1), u32 (s1 + r.2.1), u32 (s2 + r.2.2.1), u32 (s3 + r.2.2.2.1),
   u32 (s4 + r.2.2.2.2.1), u32 (s5 + r.2.2.2.2.2.1),
   u32 (s6 + r.2.2.2.2.2.2.1), u32 (s7 + r.2.2.2.2.2.2.2)]

end SHA256

/-- SHA-256 of a byte string, the digest as its 32 bytes. Models Node's
`crypto.createHash('sha256').update(msg).digest()`. -/
def sha256 (msg : Bytes) : Bytes :=
  let padded := SHA256.pad msg
  ((blocks64 (padded.length) padded).foldl SHA256.compress SHA256.iv).flatMap u32be

namespace RIPEMD160

/-- The five RIPEMD-160 initial chaining values. -/
def iv : List Nat :=
  [0x67452301, 0xEFCDAB89, 0x98BADCFE, 0x10325476, 0xC3D2E1F0]

/-- The left-line round constants. -/
def kl (j : Nat) : Nat :=
  if j < 16 then 0 else if j < 32 then 0x5A827999 else
  if j < 48 then 0x6ED9EBA1 else if j < 64 then 0x8F1BBCDC else 0xA953FD4E

/-- The right-line round constants. -/
def kr (j : Nat) : Nat :=
  if j < 16 then 0x50A28BE6 else if j < 32 then 0x5C4DD124 else
  if j < 48 then 0x6D703EF3 else if j < 64 then 0x7A6D76E9 else 0

/-- The boolean selection function for step `j`. -/
def f (j x y z : Nat) : Nat :=
  if j < 16 then x ^^^ y ^^^ z
  else if j < 32 then (x &&& y) ||| (not32 x &&& z)
  else if j < 48 then (x ||| not32 y) ^^^ z
  else if j < 64 then (x &&& z) ||| (y &&& not32 z)
  else x ^^^ (y ||| not32 z)

/-- Message word order for the left line. -/
def rl : List Nat :=
  [0, 1, 2, 3, 4, 5, 6, 7, 8, 9, 10, 11, 12, 13, 14, 15,
   7, 4, 13, 1, 10, 6, 15, 3, 12, 0, 9, 5, 2, 14, 11, 8,
   3, 10, 14, 4, 9, 15, 8, 1, 2, 7, 0, 6, 13, 11, 5, 12,
   1, 9, 11, 10, 0, 8, 12, 4, 13, 3, 7, 15, 14, 5, 6, 2,
   4, 0, 5, 9, 7, 12, 2, 10, 14, 1, 3, 8, 11, 6, 15, 13]

/-- Message word order for the right line. -/
def rr : List Nat :=
  [5, 14, 7, 0, 9, 2, 11, 4, 13, 6, 15, 8, 1, 10, 3, 12,
   6, 11, 3, 7, 0, 13, 5, 10, 14, 15, 8, 12, 4, 9, 1, 2,
   15, 5, 1, 3, 7, 14, 6, 9, 11, 8, 12, 2, 10, 0, 4, 13,
   8, 6, 4, 1, 3, 11, 15, 0, 5, 12, 2, 13, 9, 7, 10, 14,
   12, 15, 10, 4, 1, 5, 8, 7, 6, 2, 13, 14, 0, 3, 9, 11]

/-- Rotation amounts for the left line. -/
def sl : List Nat :=
  [11, 14, 15, 12, 5, 8, 7, 9, 11, 13, 14, 15, 6, 7, 9, 8,
   7, 6, 8, 13, 11, 9, 7, 15, 7, 12, 15, 9, 11, 7, 13, 12,
   11, 13, 6, 7, 14, 9, 13, 15, 14, 8, 13, 6, 5, 12, 7, 5,
   11, 12, 14, 15, 14, 15, 9, 8, 9, 14, 5, 6, 8, 6, 5, 12,
   9, 15, 5, 11, 6, 8, 13, 12, 5, 12, 13, 14, 11, 8, 5, 6]

/-- Rotation amounts for the right line. -/
def sr : List Nat :=
  [8, 9, 9, 11, 13, 15, 15, 5, 7, 7, 8, 11, 14, 14, 12, 6,
   9, 13, 15, 7, 12, 8, 9, 11, 7, 7, 12, 7, 6, 15, 13, 11,
   9, 7, 15, 11, 8, 6, 6, 14, 12, 13, 5, 14, 13, 13, 7, 5,
   15, 5, 8, 11, 14, 14, 6, 14, 6, 9, 12, 9, 12, 5, 15, 8,
   8, 5, 12, 9, 12, 5, 14, 6, 8, 13, 6, 5, 15, 13, 11, 11]

/-- One line's working state `(a,b,c,d,e)`. -/
abbrev St := Nat × Nat × Nat × Nat × Nat

/-- One step of one line: `j` is the step index, `x` the 16 message words,
`ridx`/`samt` the word order and rotation tables, `fj` the selection index. -/
def step (x : List Nat) (ridx samt : List Nat) (fj : Nat → Nat)
    (kf : Nat → Nat) (st : St) (j : Nat) : St :=
  let (a, b, c, d, e) := st
  let t := u32 (rotl32 (u32 (a + f (fj j) b c d + x.getD (ridx.getD j 0) 0 +
    kf j)) (samt.getD j 0) + e)
  (e, t, b, rotl32 c 10, d)

/-- Compress one 64-byte block into the five-word chaining state. -/
def compress (h : List Nat) (block : Bytes) : List Nat :=
  let x := bytesToWordsLE block
  let h0 := h.getD 0 0
  let h1 := h.getD 1 0
  let h2 := h.getD 2 0
  let h3 := h.getD 3 0
  let h4 := h.getD 4 0
  let lft :=
    (List.range 80).foldl (step x rl sl id kl) (h0, h1, h2, h3, h4)
  let rgt :=
    (List.range 80).foldl (step x rr sr (fun j => 79 - j) kr)
      (h0, h1, h2, h3, h4)
  [u32 (h1 + lft.2.2.1 + rgt.2.2.2.1), u32 (h2 + lft.2.2.2.1 + rgt.2.2.2.2),
   u32 (h3 + lft.2.2.2.2 + rgt.1), u32 (h4 + lft.1 + rgt.2.1),
   u32 (h0 + lft.2.1 + rgt.2.2.1)]

/-- RIPEMD-160 padding: like SHA-256 but the bit length is little-endian. -/
def pad (msg : Bytes) : Bytes :=
  let len := msg.length
  let zeros := (120 - (len + 1) % 64) % 64
  msg ++ [0x80] ++ List.replicate zeros 0 ++ u64le (8 * len)

end RIPEMD160

/-- RIPEMD-160 of a byte string, the digest as its 20 bytes. Models Node's
`crypto.createHash('ripemd160').update(msg).digest()`. -/
def ripemd160 (msg : Bytes) : Bytes :=
  let padded := RIPEMD160.pad msg
  ((blocks64 (padded.length) padded).foldl RIPEMD160.compress
    RIPEMD160.iv).flatMap u32le

/-- The `HASH160` digest, Bitcoin's standard key/script hash: RIPEMD-160 of SHA-256.
Models `bitcoin.crypto.hash160` of bitcoinjs-lib. -/
def hash160 (msg : Bytes) : Bytes := ripemd160 (sha256 msg)

/-- One lowercase hex digit. -/
def hexDigit (n : Nat) : Char :=
  if n < 10 then Char.ofNat (48 + n) else Char.ofNat (87 + n)

/-- Lowercase hex encoding of a byte string: Node's
`buffer.toString('hex')`. -/
def hexEncode (bs : Bytes) : String :=
  String.mk (bs.flatMap (fun b => [hexDigit (b / 16 % 16), hexDigit (b % 16)]))

/-- Value of one hex digit, `none` for a non-hex character. -/
def hexVal (c : Char) : Option Nat :=
  if 48 ≤ c.toNat ∧ c.toNat ≤ 57 then some (c.toNat - 48)
  else if 97 ≤ c.toNat ∧ c.toNat ≤ 102 then some (c.toNat - 87)
  else if 65 ≤ c.toNat ∧ c.toNat ≤ 70 then some (c.toNat - 55)
  else none

/-- Hex decoding of a character list; decoding stops at the first invalid
pair, as `Buffer.from(s, 'hex')` does. -/
def hexDecodeList : List Char → Bytes
  | c1 :: c2 :: rest =>
      match hexVal c1, hexVal c2 with
      | some h, some l => (16 * h + l) :: hexDecodeList rest
      | _, _ => []
  | _ => []

/-- Node's `Buffer.from(s, 'hex')`. -/
def hexDecode (s : String) : Bytes := hexDecodeList s.data

/-- The bytes of an ASCII string: Node's `Buffer.from(s)` for the literal
strings appearing in the mock MarsCoin library. -/
def asciiBytes (s : String) : Bytes := s.data.map Char.toNat

/-- A decompiled script chunk: an opcode or a data push, exactly the two
chunk shapes of bitcoinjs-lib `script.compile` / `script.decompile`. -/
inductive ScriptItem where
  | op (code : Nat)
  | data (bytes : Bytes)
deriving DecidableEq, Repr

/-- Bitcoin script opcodes used by the HTLC modules. -/
def OP_FALSE : Nat := 0x00
/-- Opcode `OP_PUSHDATA1`. -/
def OP_PUSHDATA1 : Nat := 0x4c
/-- Opcode `OP_PUSHDATA2`. -/
def OP_PUSHDATA2 : Nat := 0x4d
/-- Opcode `OP_PUSHDATA4`. -/
def OP_PUSHDATA4 : Nat := 0x4e
/-- Opcode `OP_TRUE` (= `OP_1`). -/
def OP_TRUE : Nat := 0x51
/-- Opcode `OP_IF`. -/
def OP_IF : Nat := 0x63
/-- Opcode `OP_ELSE`. -/
def OP_ELSE : Nat := 0x67
/-- Opcode `OP_ENDIF`. -/
def OP_ENDIF : Nat := 0x68
/-- Opcode `OP_DROP`. -/
def OP_DROP : Nat := 0x75
/-- Opcode `OP_DUP`. -/
def OP_DUP : Nat := 0x76
/-- Opcode `OP_EQUAL`. -/
def OP_EQUAL : Nat := 0x87
/-- Opcode `OP_EQUALVERIFY`. -/
def OP_EQUALVERIFY : Nat := 0x88
/-- Opcode `OP_SHA256`. -/
def OP_SHA256 : Nat := 0xa8
/-- Opcode `OP_HASH160`. -/
def OP_HASH160 : Nat := 0xa9
/-- Opcode `OP_CHECKSIG`. -/
def OP_CHECKSIG : Nat := 0xac
/-- Opcode `OP_CHECKLOCKTIMEVERIFY`. -/
def OP_CHECKLOCKTIMEVERIFY : Nat := 0xb1

/-- The length header of a canonical Bitcoin data push (bitcoinjs-lib
`pushdata.encode`): a bare length byte below `OP_PUSHDATA1`, else the
smallest `OP_PUSHDATAn` form. -/
def pushHeader (n : Nat) : Bytes :=
  if n < 76 then [n]
  else if n < 256 then [OP_PUSHDATA1, n]
  else if n < 65536 then [OP_PUSHDATA2, n % 256, n / 256 % 256]
  else [OP_PUSHDATA4, n % 256, n / 256 % 256, n / 65536 % 256,
        n / 16777216 % 256]

/-- Serialize one data push as bitcoinjs-lib `script.compile` does,
including its `asMinimalOP` conversion of the empty push and single-byte
pushes of `1..16` and `0x81` to bare opcodes. -/
def pushEncode (bs : Bytes) : Bytes :=
  match bs with
  | [] => [OP_FALSE]
  | [b] =>
      if 1 ≤ b ∧ b ≤ 16 then [0x50 + b]
      else if b = 0x81 then [0x4f]
      else [1, b]
  | _ => pushHeader bs.length ++ bs

/-- Serialize one script chunk. -/
def compileItem : ScriptItem → Bytes
  | .op code => [code]
  | .data bs => pushEncode bs

/-- bitcoinjs-lib `script.compile`: concatenate the serialized chunks. -/
def scriptCompile (items : List ScriptItem) : Bytes :=
  items.flatMap compileItem

/-- The chunk that bitcoinjs-lib `script.decompile` emits for raw push data
(its `asMinimalOP` readback): canonical single-opcode forms come back as
opcodes, everything else as a data chunk. -/
def asMinimalItem (bs : Bytes) : ScriptItem :=
  match bs with
  | [] => .op OP_FALSE
  | [b] =>
      if 1 ≤ b ∧ b ≤ 16 then .op (0x50 + b)
      else if b = 0x81 then .op (0x4f)
      else .data [b]
  | _ => .data bs

/-- Read one push's data given its leading opcode `b` (`1 ≤ b ≤ 78`):
returns the data and the remaining bytes, `none` on a truncated script. -/
def readPush (b : Nat) (rest : Bytes) : Option (Bytes × Bytes) :=
  if b < 76 then
    if rest.length < b then none else some (rest.take b, rest.drop b)
  else if b = 76 then
    match rest with
    | n :: r => if r.length < n then none else some (r.take n, r.drop n)
    | [] => none
  else if b = 77 then
    match rest with
    | n0 :: n1 :: r =>
        let n := n0 + 256 * n1
        if r.length < n then none else some (r.take n, r.drop n)
    | _ => none
  else
    match rest with
    | n0 :: n1 :: n2 :: n3 :: r =>
        let n := n0 + 256 * n1 + 65536 * n2 + 16777216 * n3
        if r.length < n then none else some (r.take n, r.drop n)
    | _ => none

/-- bitcoinjs-lib `script.decompile`, fuel-guarded (each chunk consumes at
least one byte, so `bytes.length` is always enough fuel). -/
def decompileAux (fuel : Nat) (bs : Bytes) : Option (List ScriptItem) :=
  match bs, fuel with
  | [], _ => some []
  | _ :: _, 0 => none
  | b :: rest, fuel + 1 =>
      if 1 ≤ b ∧ b ≤ 78 then
        (readPush b rest).bind (fun pr =>
          (decompileAux fuel pr.2).map (asMinimalItem pr.1 :: ·))
      else
        (decompileAux fuel rest).map (.op b :: ·)

/-- bitcoinjs-lib `script.decompile` on a serialized script. -/
def scriptDecompile (bytes : Bytes) : Option (List ScriptItem) :=
  decompileAux bytes.length bytes

/-- bitcoinjs-lib `script.number.encode` for the non-negative script
numbers written by the HTLC builders: minimal little-endian with a zero
sentinel byte when the top bit is set. -/
def natLEBytes : Nat → Nat → Bytes
  | 0, _ => []
  | _, 0 => []
  | fuel + 1, n => n % 256 :: natLEBytes fuel (n / 256)

/-- bitcoinjs-lib `script.number.encode` (non-negative case). -/
def scriptNumEncode (n : Nat) : Bytes :=
  if n = 0 then []
  else
    let b := natLEBytes n n
    if 128 ≤ b.getD (b.length - 1) 0 then b ++ [0] else b

/-- The descriptor returned by both `createHtlc` functions: P2SH address,
hex redeem script, hex P2SH output script, locktime. -/
structure HtlcResult where
  address : String
  redeemScript : String
  p2shOutput : String
  locktime : Nat
deriving DecidableEq, Repr

/-- The P2SH address bitcoinjs-lib `payments.p2sh` derives: determined by
`HASH160(redeemScript)` and the network version byte. Modelled up to the
injective Base58Check re-encoding (no claim depends on the textual form,
only on what determines it). -/
def p2shAddress (redeemScript : Bytes) : String :=
  hexEncode (hash160 redeemScript)

/-- The P2SH output script `OP_HASH160 <HASH160(redeemScript)> OP_EQUAL`
produced by bitcoinjs-lib `payments.p2sh`. -/
def p2shOutputScript (redeemScript : Bytes) : Bytes :=
  scriptCompile [.op OP_HASH160, .data (hash160 redeemScript), .op OP_EQUAL]

/-- bitcoinjs-lib `address.toOutputScript`: the P2PKH/P2SH output script of
a Base58Check address. Modelled up to an injective re-encoding of the
address string; no claim depends on the exact script bytes. -/
def toOutputScript (addr : String) : Bytes := asciiBytes addr

/-- A transaction input as bitcoinjs-lib `Transaction` stores it:
funding-tx hash in internal (reversed) byte order, output index, sequence,
and the input script installed by `setInputScript`. -/
structure TxIn where
  hash : Bytes
  index : Nat
  sequence : Nat
  script : Bytes
deriving DecidableEq, Repr

/-- A transaction output: output script and value. The value is a
JavaScript number (`ℚ` here): the builders write `amount - fee` with no
rounding or checks. -/
structure TxOut where
  script : Bytes
  value : ℚ
deriving DecidableEq, Repr

/-- A legacy Bitcoin transaction as built by the claim/refund builders. -/
structure BtcTx where
  version : Nat := 1
  locktime : Nat := 0
  ins : List TxIn
  outs : List TxOut
deriving DecidableEq, Repr

/-- The outputs of `ECPair.fromWIF(wif).sign(sigHash)` for the one
signature a builder produces: the public key and the DER signature are
computed by the external secp256k1 library and enter the embedding as
data. -/
structure SigningKey where
  publicKey : Bytes
  signatureDER : Bytes
deriving DecidableEq, Repr

namespace BitcoinHtlc

/-- The HTLC redeem-script chunks of `createHtlc` in
`src/core/bitcoin-htlc.js` (lines 357-377 of the packed file): the
key-hash pushes use `bitcoin.crypto.hash160`, i.e. RIPEMD-160 of
SHA-256. -/
def createHtlcItems (hashLock : Bytes) (timelock : Nat)
    (recipientPubKey refundPubKey : Bytes) : List ScriptItem :=
  [.op OP_IF,
   .op OP_SHA256,
   .data hashLock,
   .op OP_EQUALVERIFY,
   .op OP_DUP,
   .op OP_HASH160,
   .data (hash160 recipientPubKey),
   .op OP_EQUALVERIFY,
   .op OP_CHECKSIG,
   .op OP_ELSE,
   .data (scriptNumEncode timelock),
   .op OP_CHECKLOCKTIMEVERIFY,
   .op OP_DROP,
   .op OP_DUP,
   .op OP_HASH160,
   .data (hash160 refundPubKey),
   .op OP_EQUALVERIFY,
   .op OP_CHECKSIG,
   .op OP_ENDIF]

/-- Function `createHtlc` of `src/core/bitcoin-htlc.js`: compile the redeem script,
derive the P2SH address and output script. -/
def createHtlc (hashLock : Bytes) (timelock : Nat)
    (recipientPubKey refundPubKey : Bytes) : HtlcResult :=
  let redeemScript := scriptCompile
    (createHtlcItems hashLock timelock recipientPubKey refundPubKey)
  { address := p2shAddress redeemScript,
    redeemScript := hexEncode redeemScript,
    p2shOutput := hexEncode (p2shOutputScript redeemScript),
    locktime := timelock }

/-- Function `claimHtlcWithPreimage` of `src/core/bitcoin-htlc.js`: one input
spending `(htlcTxId, htlcVout)` (txid hex-decoded and byte-reversed,
default sequence `0xffffffff`), one output paying `amount - fee` to the
destination, and the input script
`<DER-sig || 0x01> <pubkey> <preimage> OP_TRUE <redeemScript>`. There is
no underfunding or dust check anywhere in the function. -/
def claimHtlcWithPreimage (htlcTxId : String) (htlcVout : Nat)
    (redeemScript preimage : Bytes) (key : SigningKey)
    (destinationAddress : String) (amount fee : ℚ) : BtcTx :=
  { ins := [{ hash := (hexDecode htlcTxId).reverse,
              index := htlcVout,
              sequence := 0xffffffff,
              script := scriptCompile
                [.data (key.signatureDER ++ [0x01]),
                 .data key.publicKey,
                 .data preimage,
                 .op OP_TRUE,
                 .data redeemScript] }],
    outs := [{ script := toOutputScript destinationAddress,
               value := amount - fee }] }

/-- Function `refundHtlcAfterTimeout` of `src/core/bitcoin-htlc.js`: locktime set,
one input with sequence `0xfffffffe`, one output paying `amount - fee`,
and the refund-path input script
`<DER-sig || 0x01> <pubkey> OP_FALSE <redeemScript>`. -/
def refundHtlcAfterTimeout (htlcTxId : String) (htlcVout : Nat)
    (redeemScript : Bytes) (key : SigningKey) (refundAddress : String)
    (amount fee : ℚ) (locktime : Nat) : BtcTx :=
  { locktime := locktime,
    ins := [{ hash := (hexDecode htlcTxId).reverse,
              index := htlcVout,
              sequence := 0xfffffffe,
              script := scriptCompile
                [.data (key.signatureDER ++ [0x01]),
                 .data key.publicKey,
                 .op OP_FALSE,
                 .data redeemScript] }],
    outs := [{ script := toOutputScript refundAddress,
               value := amount - fee }] }

/-- The inner scan of `extractPreimageFromBitcoinTx`: the first data chunk
of exactly 32 bytes whose SHA-256 equals the expected hash, returned
hex-encoded. -/
def scanItems (expectedHash : Bytes) : List ScriptItem → Option String
  | [] => none
  | .data item :: rest =>
      if item.length = 32 ∧ sha256 item = expectedHash then
        some (hexEncode item)
      else scanItems expectedHash rest
  | .op _ :: rest => scanItems expectedHash rest

/-- The per-input loop of `extractPreimageFromBitcoinTx`. A script that
fails to decompile makes the source iterate over `null`, which throws and
is caught, returning `null` for the whole call. -/
def scanIns (expectedHash : Bytes) : List TxIn → Option String
  | [] => none
  | i :: rest =>
      match scriptDecompile i.script with
      | none => none
      | some items =>
          match scanItems expectedHash items with
          | some p => some p
          | none => scanIns expectedHash rest

/-- Function `extractPreimageFromBitcoinTx` of `src/core/bitcoin-htlc.js`, applied
to the transaction that `getRawTransaction` + `Transaction.fromHex` would
deliver (the hex round-trip through the external library is the
identity). -/
def extractPreimageFromBitcoinTx (tx : BtcTx) (expectedHash : Bytes) :
    Option String :=
  scanIns expectedHash tx.ins

end BitcoinHtlc

namespace MarscoinLib

/-- The constant buffer `Buffer.from('mock_compiled_script')` that the
in-repo `marscoin-lib-wrapper.js` mock returns from `script.compile`,
discarding the chunks it was given. -/
def mockCompiledScript : Bytes := asciiBytes "mock_compiled_script"

/-- The mock `marscoin.script.compile` of `marscoin-lib-wrapper.js` (the wrapper
module is present in the repository, so `require` succeeds and this mock
is what `marscoin-htlc.js` runs against). -/
def compile (_ : List ScriptItem) : Bytes := mockCompiledScript

/-- The mock `marscoin.script.number.encode` of the wrapper: `n & 0xff`, a single
byte, not a minimal script number. -/
def numberEncode (n : Nat) : Bytes := [n % 256]

/-- The mock `marscoin.payments.p2sh(...).address` of the wrapper: a constant. -/
def mockP2shAddress : String := "mock_p2sh_address"

/-- The mock `marscoin.payments.p2sh(...).output` of the wrapper: a constant. -/
def mockP2shOutput : Bytes := asciiBytes "mock_p2sh_output"

/-- The mock `marscoin.address.toOutputScript` of the wrapper: a constant. -/
def mockOutputScript : Bytes := asciiBytes "mock_output_script"

/-- The mock `marscoin.ECPair.fromWIF(...).publicKey` of the wrapper: a constant. -/
def mockPublicKey : Bytes := asciiBytes "mock_public_key"

/-- The mock `sign(...).toDER()` of the wrapper: a constant. -/
def mockSignature : Bytes := asciiBytes "mock_signature"

/-- The mock `toHex()` of the wrapper's mock `Transaction` class: a constant. -/
def mockTransactionHex : String := "mock_transaction_hex"

/-- The mock `getId()` of the wrapper's mock `Transaction` class: a constant. -/
def mockTransactionId : String := "mock_transaction_id"

end MarscoinLib

/-- An input of the wrapper's mock `Transaction` class: `addInput` stores
`(txid, vout, sequence)` (sequence `none` when the call omits it) and
`setInputScript` adds the script. -/
structure MarsTxIn where
  txid : Bytes
  vout : Nat
  sequence : Option Nat
  script : Option Bytes
deriving DecidableEq, Repr

/-- An output of the mock `Transaction` class: `addOutput` stores
`(scriptPubKey, value)`; the value is `amount - fee`, unchecked. -/
structure MarsTxOut where
  scriptPubKey : Bytes
  value : ℚ
deriving DecidableEq, Repr

/-- The wrapper's mock `Transaction` object state. -/
structure MarsTx where
  locktime : Nat := 0
  inputs : List MarsTxIn
  outputs : List MarsTxOut
deriving DecidableEq, Repr

namespace MarscoinHtlc

/-- The HTLC redeem-script chunks of `createHtlc` in
`src/core/marscoin-htlc.js` (lines 59-79): the key-hash pushes are
`crypto.createHash('ripemd160')` of the public key directly — no inner
SHA-256 — and the timelock is encoded with the wrapper's one-byte
`number.encode`. -/
def createHtlcItems (hashLock : Bytes) (timelock : Nat)
    (recipientPubKey refundPubKey : Bytes) : List ScriptItem :=
  [.op OP_IF,
   .op OP_SHA256,
   .data hashLock,
   .op OP_EQUALVERIFY,
   .op OP_DUP,
   .op OP_HASH160,
   .data (ripemd160 recipientPubKey),
   .op OP_EQUALVERIFY,
   .op OP_CHECKSIG,
   .op OP_ELSE,
   .data (MarscoinLib.numberEncode timelock),
   .op OP_CHECKLOCKTIMEVERIFY,
   .op OP_DROP,
   .op OP_DUP,
   .op OP_HASH160,
   .data (ripemd160 refundPubKey),
   .op OP_EQUALVERIFY,
   .op OP_CHECKSIG,
   .op OP_ENDIF]

/-- Function `createHtlc` of `src/core/marscoin-htlc.js`: the chunks are handed to
the wrapper's `script.compile`, which ignores them and returns the
constant mock buffer; the P2SH payment is likewise the wrapper's
constant. -/
def createHtlc (hashLock : Bytes) (timelock : Nat)
    (recipientPubKey refundPubKey : Bytes) : HtlcResult :=
  let redeemScript := MarscoinLib.compile
    (createHtlcItems hashLock timelock recipientPubKey refundPubKey)
  { address := MarscoinLib.mockP2shAddress,
    redeemScript := hexEncode redeemScript,
    p2shOutput := hexEncode MarscoinLib.mockP2shOutput,
    locktime := timelock }

/-- Function `claimHtlcWithPreimage` of `src/core/marscoin-htlc.js`, running
against the wrapper's mock `Transaction` and `ECPair`: one input
`(txid reversed, vout)` with no sequence argument, one output paying
`amount - fee` to the mock output script, input script from the mock
`script.compile`. No underfunding or dust check exists here either. -/
def claimHtlcWithPreimage (htlcTxId : String) (htlcVout : Nat)
    (redeemScript preimage : Bytes) (destinationAddress : String)
    (amount fee : ℚ) : MarsTx :=
  { inputs := [{ txid := (hexDecode htlcTxId).reverse,
                 vout := htlcVout,
                 sequence := none,
                 script := some (MarscoinLib.compile
                   [.data (MarscoinLib.mockSignature ++ [0x01]),
                    .data MarscoinLib.mockPublicKey,
                    .data preimage,
                    .op OP_TRUE,
                    .data redeemScript]) }],
    outputs := [{ scriptPubKey := MarscoinLib.mockOutputScript,
                  value := amount - fee }] }

/-- Function `refundHtlcAfterTimeout` of `src/core/marscoin-htlc.js` against the
wrapper mocks. -/
def refundHtlcAfterTimeout (htlcTxId : String) (htlcVout : Nat)
    (redeemScript : Bytes) (refundAddress : String) (amount fee : ℚ)
    (locktime : Nat) : MarsTx :=
  { locktime := locktime,
    inputs := [{ txid := (hexDecode htlcTxId).reverse,
                 vout := htlcVout,
                 sequence := some 0xfffffffe,
                 script := some (MarscoinLib.compile
                   [.data (MarscoinLib.mockSignature ++ [0x01]),
                    .data MarscoinLib.mockPublicKey,
                    .op OP_FALSE,
                    .data redeemScript]) }],
    outputs := [{ scriptPubKey := MarscoinLib.mockOutputScript,
                  value := amount - fee }] }

end MarscoinHtlc

/-- The address block of a swap record. -/
structure SwapAddresses where
  initiatorBtc : String
  initiatorMarscoin : String
  participantBtc : String
  participantMarscoin : String
deriving DecidableEq, Repr

/-- The `timeouts` block of a swap record (absolute values as the code
computed them; the active coordinator uses unix seconds). -/
structure SwapTimeouts where
  marscoin : Nat
  bitcoin : Nat
deriving DecidableEq, Repr

/-- The `amounts` block of a swap record: JavaScript numbers. -/
structure SwapAmounts where
  btc : ℚ
  marscoin : ℚ
deriving DecidableEq, Repr

/-- The swap record of `src/core/swap-coordinator.js`. Fields the code
adds by later assignment (`fundingTxIds`, `completedAt`, claim txids) are
`Option`s, `none` while undefined. -/
structure Swap where
  id : String
  preimage : String
  hash : String
  addresses : SwapAddresses
  btcHtlc : HtlcResult
  marscoinHtlc : HtlcResult
  timeouts : SwapTimeouts
  amounts : SwapAmounts
  status : String
  createdAt : Nat
  fundingTxIds : Option (Option String × Option String) := none
  completedAt : Option Nat := none
  bitcoinClaimTxId : Option String := none
  marscoinClaimTxId : Option String := none
deriving DecidableEq, Repr

/-- The `(txid, vout omitted, amount, confirmations)` view of one entry of
`getAddressUtxos`. -/
structure Utxo where
  txid : String
  amount : ℚ
  confirmations : Nat
deriving DecidableEq, Repr

/-- The return value of `generateHashLock`: hex preimage and the raw
digest buffer under the key `hash`. -/
structure HashLockResult where
  preimage : String
  hash : Bytes
deriving DecidableEq, Repr

/-- Function `generateHashLock` of `src/core/swap-coordinator.js`: hex-encode the
32 random bytes, SHA-256 them. The random draw enters as the argument. -/
def generateHashLock (preimageBytes : Bytes) : HashLockResult :=
  { preimage := hexEncode preimageBytes, hash := sha256 preimageBytes }

/-- JavaScript property access `.hash` on a `Buffer`: a Buffer has no
`hash` property, so the access yields `undefined` (`none`).
`initiateSwap` destructures `const { preimage, hash } = generateHashLock()`
— so its `hash` is already the digest buffer — and then reads `hash.hash`
three times. -/
def jsBufferHashProp (_ : Bytes) : Option Bytes := none

/-- Node's `Buffer.from(x)` where `x` may be `undefined`: Node throws
`ERR_INVALID_ARG_TYPE` on `undefined`. -/
def bufferFromJs : Option Bytes → Except String Bytes
  | some bs => Except.ok bs
  | none => Except.error "TypeError [ERR_INVALID_ARG_TYPE]: argument is undefined"

/-- JavaScript `x.toString('hex')` where `x` may be `undefined`: throws on
`undefined`. -/
def jsToHexString : Option Bytes → Except String String
  | some bs => Except.ok (hexEncode bs)
  | none => Except.error "TypeError: cannot read toString of undefined"

/-- The parameters of `initiateSwap`. -/
structure SwapParams where
  initiatorBtcAddress : String
  initiatorMarscoinAddress : String
  participantBtcAddress : String
  participantMarscoinAddress : String
  btcAmount : ℚ
  marscoinAmount : ℚ
  timeoutDuration : Nat
deriving DecidableEq, Repr

/-- Function `initiateSwap` of `src/core/swap-coordinator.js` (the active, non-stub
coordinator). `now` is `Math.floor(Date.now() / 1000)`; `preimageBytes`
and `idBytes` are the two `crypto.randomBytes` draws. The function
computes the asymmetric timelocks (`now + D` for MarsCoin, `now + 2·D`
for Bitcoin) and then evaluates `Buffer.from(hash.hash)` — where `hash`
is already the digest buffer, so `hash.hash` is `undefined` and the call
throws before any HTLC or swap record is built. -/
def initiateSwap (params : SwapParams) (now : Nat)
    (preimageBytes idBytes : Bytes) : Except String Swap := do
  let hl := generateHashLock preimageBytes
  let marscoinTimelock := now + params.timeoutDuration
  let bitcoinTimelock := now + params.timeoutDuration * 2
  let btcHashLock ← bufferFromJs (jsBufferHashProp hl.hash)
  let btcHtlc := BitcoinHtlc.createHtlc btcHashLock bitcoinTimelock
    (hexDecode params.initiatorBtcAddress)
    (hexDecode params.participantBtcAddress)
  let mrsHashLock ← bufferFromJs (jsBufferHashProp hl.hash)
  let mrsHtlc := MarscoinHtlc.createHtlc mrsHashLock marscoinTimelock
    (hexDecode params.participantMarscoinAddress)
    (hexDecode params.initiatorMarscoinAddress)
  let hashHex ← jsToHexString (jsBufferHashProp hl.hash)
  pure { id := hexEncode idBytes,
         preimage := hl.preimage,
         hash := hashHex,
         addresses := { initiatorBtc := params.initiatorBtcAddress,
                        initiatorMarscoin := params.initiatorMarscoinAddress,
                        participantBtc := params.participantBtcAddress,
                        participantMarscoin := params.participantMarscoinAddress },
         btcHtlc := btcHtlc,
         marscoinHtlc := mrsHtlc,
         timeouts := { marscoin := marscoinTimelock, bitcoin := bitcoinTimelock },
         amounts := { btc := params.btcAmount, marscoin := params.marscoinAmount },
         status := "initialized",
         createdAt := now }

/-- The record returned by the stub `initiateSwap` (the second, stub
swap-coordinator variant in the repository), with exactly the fields that
stub builds. -/
structure StubSwap where
  id : String
  preimage : String
  hash : String
  btcHtlcAddress : String
  marscoinHtlcAddress : String
  timeouts : SwapTimeouts
  amounts : SwapAmounts
  status : String
  createdAt : Nat
deriving DecidableEq, Repr

/-- The stub coordinator's `initiateSwap`: note `timeouts` are
`Date.now() + 3600` and `Date.now() + 7200` — milliseconds plus a seconds
offset — while `createdAt` is `Math.floor(Date.now() / 1000)` in seconds,
and the caller's `timeoutDuration` is never used. `nowMs` is
`Date.now()`. -/
def stubInitiateSwap (params : SwapParams) (nowMs : Nat)
    (preimageBytes idBytes : Bytes) : StubSwap :=
  { id := hexEncode idBytes,
    preimage := hexEncode preimageBytes,
    hash := hexEncode (sha256 preimageBytes),
    btcHtlcAddress := "dummy_btc_htlc_address",
    marscoinHtlcAddress := "dummy_marscoin_htlc_address",
    timeouts := { marscoin := nowMs + 3600, bitcoin := nowMs + 7200 },
    amounts := { btc := params.btcAmount, marscoin := params.marscoinAmount },
    status := "initialized",
    createdAt := nowMs / 1000 }

/-- The funding-check loop of `verifySwapFunding`: the first UTXO whose
amount is at least the required amount (the loop `break`s there,
whatever that UTXO's confirmation count). -/
def findFundingUtxo (utxos : List Utxo) (required : ℚ) : Option Utxo :=
  utxos.find? (fun u => decide (required ≤ u.amount))

/-- The report `verifySwapFunding` returns. -/
structure FundingStatus where
  funded : Bool
  btcFunded : Bool
  marscoinFunded : Bool
  btcConfirmations : Nat
  marscoinConfirmations : Nat
  btcFundingTxId : Option String
  marscoinFundingTxId : Option String
deriving DecidableEq, Repr

/-- Function `verifySwapFunding` of `src/core/swap-coordinator.js`. The chain
clients enter as the UTXO lists their `getAddressUtxos` calls return
(`none` models a call that threw; the source catches and leaves that side
unfunded). Returns the report and the (possibly mutated) swap: on full
funding the status is set to `funded` and the funding txids recorded. -/
def verifySwapFunding (swap : Swap) (btcUtxos marscoinUtxos : Option (List Utxo))
    (requiredBtcConfirmations requiredMarscoinConfirmations : Nat) :
    FundingStatus × Swap :=
  let btcFound := findFundingUtxo (btcUtxos.getD []) swap.amounts.btc
  let btcFunded := btcFound.isSome
  let btcConfirmations := (btcFound.map (·.confirmations)).getD 0
  let btcFundingTxId := btcFound.map (·.txid)
  let mrsFound := findFundingUtxo (marscoinUtxos.getD []) swap.amounts.marscoin
  let marscoinFunded := mrsFound.isSome
  let marscoinConfirmations := (mrsFound.map (·.confirmations)).getD 0
  let marscoinFundingTxId := mrsFound.map (·.txid)
  let btcConfirmed := decide (requiredBtcConfirmations ≤ btcConfirmations)
  let marscoinConfirmed := decide (requiredMarscoinConfirmations ≤ marscoinConfirmations)
  let funded := btcFunded && marscoinFunded && btcConfirmed && marscoinConfirmed
  let swap2 :=
    if funded then
      { swap with status := "funded",
                  fundingTxIds := some (btcFundingTxId, marscoinFundingTxId) }
    else swap
  ({ funded := funded,
     btcFunded := btcFunded && btcConfirmed,
     marscoinFunded := marscoinFunded && marscoinConfirmed,
     btcConfirmations := btcConfirmations,
     marscoinConfirmations := marscoinConfirmations,
     btcFundingTxId := btcFundingTxId,
     marscoinFundingTxId := marscoinFundingTxId }, swap2)

/-- JavaScript `x || d` for a possibly-absent number: the default is used
when `x` is absent, `0`, or `NaN`; the builders are only reached with
absent-or-positive fees, for which this is exact. -/
def jsOrQ (x : Option ℚ) (dflt : ℚ) : ℚ :=
  match x with
  | some v => if v = 0 then dflt else v
  | none => dflt

/-- The claim parameters of `completeSwap`. The private keys enter as the
signing outputs the external `ECPair` would derive from them (`none` when
the caller supplies no key for that side). -/
structure ClaimParams where
  initiatorBtcPrivateKey : Option SigningKey := none
  participantMarscoinPrivateKey : Option SigningKey := none
  btcFee : Option ℚ := none
  marscoinFee : Option ℚ := none
deriving DecidableEq, Repr

/-- The Bitcoin fee `completeSwap` hands the claim builder:
`btcFee || 1000` (satoshis). -/
def completeSwapBtcFee (claimParams : ClaimParams) : ℚ :=
  jsOrQ claimParams.btcFee 1000

/-- The MarsCoin fee `completeSwap` hands the claim builder:
`marscoinFee || 0.001` — a fractional whole-coin default, not integer
minor units. -/
def completeSwapMarscoinFee (claimParams : ClaimParams) : ℚ :=
  jsOrQ claimParams.marscoinFee (1 / 1000)

/-- The result object `completeSwap` returns. -/
structure CompleteResult where
  success : Bool
  error : Option String := none
  fundingStatus : Option FundingStatus := none
  marscoinClaimTxId : Option String := none
  bitcoinClaimTxId : Option String := none
  preimage : Option String := none
  completedAt : Option Nat := none
deriving DecidableEq, Repr

/-- The bitcoin funding txid stored on the record
(`swap.fundingTxIds.bitcoin`). -/
def Swap.fundingBitcoin (s : Swap) : Option String :=
  s.fundingTxIds.bind (·.1)

/-- The marscoin funding txid stored on the record. -/
def Swap.fundingMarscoin (s : Swap) : Option String :=
  s.fundingTxIds.bind (·.2)

/-- Function `completeSwap` of `src/core/swap-coordinator.js`. The chain clients
enter as the UTXO lists of the inner `verifySwapFunding` call (made with
its default requirement of 1 confirmation each) and as the broadcast
outcomes `btcSend` / `marscoinSend` (`none` models a `sendRawTransaction`
— or any step of the guarded `try` block — that threw; the source catches
and leaves that side's claim txid `null`). `now` is
`Math.floor(Date.now() / 1000)` at the status update. Returns the result
object and the mutated swap record. -/
def completeSwap (swap : Swap) (btcUtxos marscoinUtxos : Option (List Utxo))
    (btcSend : BtcTx → Option String) (marscoinSend : MarsTx → Option String)
    (claimParams : ClaimParams) (now : Nat) : CompleteResult × Swap :=
  let vr := verifySwapFunding swap btcUtxos marscoinUtxos 1 1
  let fundingStatus := vr.fst
  let swap1 := vr.snd
  if fundingStatus.funded = false then
    ({ success := false,
       error := some "Swap is not fully funded and confirmed",
       fundingStatus := some fundingStatus }, swap1)
  else
    let bitcoinClaimTxId :=
      match claimParams.initiatorBtcPrivateKey with
      | none => none
      | some key =>
          btcSend (BitcoinHtlc.claimHtlcWithPreimage
            (swap1.fundingBitcoin.getD "") 0
            (hexDecode swap1.btcHtlc.redeemScript)
            (hexDecode swap1.preimage) key
            swap1.addresses.initiatorBtc
            swap1.amounts.btc (completeSwapBtcFee claimParams))
    let marscoinClaimTxId :=
      match claimParams.participantMarscoinPrivateKey with
      | none => none
      | some _ =>
          marscoinSend (MarscoinHtlc.claimHtlcWithPreimage
            (swap1.fundingMarscoin.getD "") 0
            (hexDecode swap1.marscoinHtlc.redeemScript)
            (hexDecode swap1.preimage)
            swap1.addresses.participantMarscoin
            swap1.amounts.marscoin (completeSwapMarscoinFee claimParams))
    let newStatus :=
      if bitcoinClaimTxId.isSome || marscoinClaimTxId.isSome then "completed"
      else swap1.status
    let swap2 :=
      { swap1 with
        status := newStatus,
        completedAt := some now,
        bitcoinClaimTxId :=
          if bitcoinClaimTxId.isSome then bitcoinClaimTxId
          else swap1.bitcoinClaimTxId,
        marscoinClaimTxId :=
          if marscoinClaimTxId.isSome then marscoinClaimTxId
          else swap1.marscoinClaimTxId }
    ({ success := bitcoinClaimTxId.isSome || marscoinClaimTxId.isSome,
       marscoinClaimTxId := marscoinClaimTxId,
       bitcoinClaimTxId := bitcoinClaimTxId,
       preimage := some swap1.preimage,
       completedAt := some now }, swap2)

/-- The fee defaults of `src/config/index.js`: `bitcoin.fee = 1000`
satoshis, `marscoin.fee = 0.0001` — a fractional MarsCoin value ("Fee in
MarsCoin", per the source comment). -/
structure ConfigFees where
  bitcoinFee : ℚ
  marscoinFee : ℚ
deriving DecidableEq, Repr

/-- The fee entries of `defaultConfig`. -/
def defaultConfigFees : ConfigFees :=
  { bitcoinFee := 1000, marscoinFee := 1 / 10000 }

/-- The redeem-script byte layout asserted by the specification, written
from its words: `OP_IF OP_SHA256 <32-byte hash push> OP_EQUALVERIFY OP_DUP
OP_HASH160 <HASH160(claim_pubkey)> OP_EQUALVERIFY OP_CHECKSIG OP_ELSE
<minimal script number of t> OP_CHECKLOCKTIMEVERIFY OP_DROP OP_DUP
OP_HASH160 <HASH160(refund_pubkey)> OP_EQUALVERIFY OP_CHECKSIG OP_ENDIF`,
with `HASH160 = RIPEMD160(SHA-256(.))`, the hash pushed as a 32-byte data
push and the key hashes as 20-byte data pushes. This is the comparison
target for the scripts the two `createHtlc` functions return. -/
def specHtlcRedeemScript (hashLock : Bytes) (timelock : Nat)
    (claimPubKey refundPubKey : Bytes) : Bytes :=
  [OP_IF, OP_SHA256, 32] ++ hashLock ++
  [OP_EQUALVERIFY, OP_DUP, OP_HASH160, 20] ++ hash160 claimPubKey ++
  [OP_EQUALVERIFY, OP_CHECKSIG, OP_ELSE] ++
  pushEncode (scriptNumEncode timelock) ++
  [OP_CHECKLOCKTIMEVERIFY, OP_DROP, OP_DUP, OP_HASH160, 20] ++
  hash160 refundPubKey ++
  [OP_EQUALVERIFY, OP_CHECKSIG, OP_ENDIF]

/-- A concrete 32-byte preimage fixture (bytes 0..31). -/
def samplePreimage : Bytes := List.range 32

/-- A concrete parameter fixture for `initiateSwap`: well-formed hex
addresses, positive amounts, a one-hour timeout. -/
def sampleParams : SwapParams :=
  { initiatorBtcAddress := "02aa11",
    initiatorMarscoinAddress := "02bb22",
    participantBtcAddress := "02cc33",
    participantMarscoinAddress := "02dd44",
    btcAmount := 100000,
    marscoinAmount := 10,
    timeoutDuration := 3600 }

/-- A concrete swap-record fixture for exercising `verifySwapFunding` and
`completeSwap` (those functions accept any record; this one carries the
spec's scenario-A amounts and timeouts). -/
def testSwap : Swap :=
  { id := "00112233445566778899aabbccddeeff",
    preimage := hexEncode samplePreimage,
    hash := hexEncode (sha256 samplePreimage),
    addresses := { initiatorBtc := "ib", initiatorMarscoin := "im",
                   participantBtc := "pb", participantMarscoin := "pm" },
    btcHtlc := { address := "ba", redeemScript := "bb",
                 p2shOutput := "bc", locktime := 1700007200 },
    marscoinHtlc := { address := "ma", redeemScript := "mb",
                      p2shOutput := "mc", locktime := 1700003600 },
    timeouts := { marscoin := 1700003600, bitcoin := 1700007200 },
    amounts := { btc := 100000, marscoin := 10 },
    status := "initialized",
    createdAt := 1700000000 }

/-- A signing-key fixture: a 33-byte public key and a 70-byte DER
signature. -/
def sampleKey : SigningKey :=
  { publicKey := List.replicate 33 2, signatureDER := List.replicate 70 48 }

/-- One SHA-256 block compression yields an 8-word state. -/
theorem sha256_compress_length (st : List Nat) (b : Bytes) :
    (SHA256.compress st b).length = 8 := rfl

/-- Folding SHA-256 compression preserves the 8-word state length. -/
theorem sha256_foldl_length (bl : List Bytes) (st : List Nat)
    (h : st.length = 8) : (bl.foldl SHA256.compress st).length = 8 := by
  induction bl generalizing st with
  | nil => exact h
  | cons b rest ih => exact ih _ (sha256_compress_length st b)

/-- Word-to-byte expansion length, big-endian. -/
theorem flatMap_u32be_length (l : List Nat) :
    (l.flatMap u32be).length = 4 * l.length := by
  induction l with
  | nil => rfl
  | cons x rest ih => simp [u32be, ih]; ring

/-- Word-to-byte expansion length, little-endian. -/
theorem flatMap_u32le_length (l : List Nat) :
    (l.flatMap u32le).length = 4 * l.length := by
  induction l with
  | nil => rfl
  | cons x rest ih => simp [u32le, ih]; ring

/-- A SHA-256 digest is 32 bytes. -/
theorem sha256_length (msg : Bytes) : (sha256 msg).length = 32 := by
  unfold sha256
  rw [flatMap_u32be_length, sha256_foldl_length]
  rfl

/-- One RIPEMD-160 block compression yields a 5-word state. -/
theorem ripemd160_compress_length (st : List Nat) (b : Bytes) :
    (RIPEMD160.compress st b).length = 5 := rfl

/-- Folding RIPEMD-160 compression preserves the 5-word state length. -/
theorem ripemd160_foldl_length (bl : List Bytes) (st : List Nat)
    (h : st.length = 5) : (bl.foldl RIPEMD160.compress st).length = 5 := by
  induction bl generalizing st with
  | nil => exact h
  | cons b rest ih => exact ih _ (ripemd160_compress_length st b)

/-- A RIPEMD-160 digest is 20 bytes. -/
theorem ripemd160_length (msg : Bytes) : (ripemd160 msg).length = 20 := by
  unfold ripemd160
  rw [flatMap_u32le_length, ripemd160_foldl_length]
  rfl

/-- A HASH160 digest is 20 bytes. -/
theorem hash160_length (msg : Bytes) : (hash160 msg).length = 20 :=
  ripemd160_length _

/-- A data push of 2 to 75 bytes serializes as its bare length byte
followed by the data. -/
theorem pushEncode_mid (bs : Bytes) (h2 : 2 ≤ bs.length)
    (h76 : bs.length < 76) : pushEncode bs = bs.length :: bs := by
  match bs, h2 with
  | b0 :: b1 :: rest, _ =>
      simp only [List.length_cons] at h76
      simp only [pushEncode, pushHeader, List.length_cons, if_pos h76]
      rfl

/-- Reading a push consumes bytes: the remainder is no longer than the
input. -/
theorem readPush_rem_length (b : Nat) (rest d rem : Bytes)
    (h : readPush b rest = some (d, rem)) : rem.length ≤ rest.length := by
  unfold readPush at h
  dsimp only at h
  repeat' split at h
  all_goals (try exact Option.noConfusion h)
  all_goals
    simp only [Option.some.injEq, Prod.mk.injEq] at h
  all_goals
    obtain ⟨-, hr⟩ := h
  all_goals
    subst hr
  all_goals
    simp only [List.length_drop, List.length_cons]
  all_goals omega

/-- Fuel irrelevance: `decompileAux` does not depend on the fuel once the fuel covers the
byte count. -/
theorem decompileAux_fuel (n : Nat) : ∀ (bs : Bytes) (f1 f2 : Nat),
    bs.length ≤ n → bs.length ≤ f1 → bs.length ≤ f2 →
    decompileAux f1 bs = decompileAux f2 bs := by
  induction n with
  | zero =>
      intro bs f1 f2 hn _ _
      match bs, hn with
      | [], _ => simp [decompileAux]
  | succ n ih =>
      intro bs f1 f2 hn hf1 hf2
      match bs with
      | [] => simp [decompileAux]
      | b :: rest =>
          simp only [List.length_cons] at hn hf1 hf2
          match f1, f2 with
          | f1 + 1, f2 + 1 =>
            simp only [decompileAux]
            by_cases hb : 1 ≤ b ∧ b ≤ 78
            · rw [if_pos hb, if_pos hb]
              cases hrp : readPush b rest with
              | none => rfl
              | some pr =>
                  obtain ⟨d, rem⟩ := pr
                  have hrem := readPush_rem_length b rest d rem hrp
                  show (Option.map _ (decompileAux f1 rem)) = Option.map _ (decompileAux f2 rem)
                  rw [ih rem f1 f2 (by omega) (by omega) (by omega)]
            · rw [if_neg hb, if_neg hb]
              rw [ih rest f1 f2 (by omega) (by omega) (by omega)]

/-- Decompiling the empty script. -/
theorem scriptDecompile_nil : scriptDecompile [] = some [] := by
  simp [scriptDecompile, decompileAux]

/-- Decompiling with a leading opcode outside the push range peels the
opcode chunk. -/
theorem scriptDecompile_op (b : Nat) (rest : Bytes)
    (hb : ¬(1 ≤ b ∧ b ≤ 78)) :
    scriptDecompile (b :: rest) =
      (scriptDecompile rest).map (ScriptItem.op b :: ·) := by
  show decompileAux (b :: rest).length (b :: rest) = _
  simp only [List.length_cons, decompileAux, if_neg hb]
  rfl

/-- Decompile one step given a successful push read. -/
theorem scriptDecompile_cons (b : Nat) (tail d rem : Bytes)
    (hb : 1 ≤ b ∧ b ≤ 78) (hr : readPush b tail = some (d, rem)) :
    scriptDecompile (b :: tail) =
      (scriptDecompile rem).map (asMinimalItem d :: ·) := by
  have hlenrem := readPush_rem_length b tail d rem hr
  show decompileAux (b :: tail).length (b :: tail) = _
  simp only [List.length_cons, decompileAux]
  rw [if_pos hb, hr]
  simp only [Option.some_bind]
  rw [decompileAux_fuel tail.length rem tail.length rem.length
    (by omega) (by omega) (le_refl _)]
  rfl

/-- Decompiling a canonical data push peels exactly that chunk
(bitcoinjs-lib `decompile` inverts `compile` chunkwise). -/
theorem scriptDecompile_push (bs rest : Bytes)
    (hlen : bs.length < 4294967296) :
    scriptDecompile (pushEncode bs ++ rest) =
      (scriptDecompile rest).map (asMinimalItem bs :: ·) := by
  match bs with
  | [] =>
      show scriptDecompile ([OP_FALSE] ++ rest) = _
      rw [List.singleton_append,
        scriptDecompile_op OP_FALSE rest (by simp [OP_FALSE])]
      rfl
  | [b] =>
      by_cases h1 : 1 ≤ b ∧ b ≤ 16
      · have he : pushEncode [b] = [0x50 + b] := by simp [pushEncode, h1]
        have hi : asMinimalItem [b] = .op (0x50 + b) := by
          simp [asMinimalItem, h1]
        rw [he, List.singleton_append,
          scriptDecompile_op _ _ (by omega), hi]
      · by_cases h2 : b = 0x81
        · have he : pushEncode [b] = [0x4f] := by simp [pushEncode, h1, h2]
          have hi : asMinimalItem [b] = .op 0x4f := by
            simp [asMinimalItem, h1, h2]
          rw [he, List.singleton_append,
            scriptDecompile_op _ _ (by omega), hi]
        · have he : pushEncode [b] = [1, b] := by simp [pushEncode, h1, h2]
          rw [he]
          have hrp : readPush 1 (b :: rest) = some ([b], rest) := by
            unfold readPush
            rw [if_pos (by omega)]
            rw [if_neg (by simp)]
            rfl
          have := scriptDecompile_cons 1 (b :: rest) [b] rest
            (by omega) hrp
          simpa using this
  | b0 :: b1 :: tl =>
      have h2le : 2 ≤ (b0 :: b1 :: tl).length := by simp
      have hpe : pushEncode (b0 :: b1 :: tl) =
          pushHeader (b0 :: b1 :: tl).length ++ (b0 :: b1 :: tl) := rfl
      generalize hgen : (b0 :: b1 :: tl) = bs2 at *
      obtain ⟨hn2, hn32⟩ : 2 ≤ bs2.length ∧ bs2.length < 4294967296 :=
        ⟨h2le, hlen⟩
      rw [hpe]
      by_cases hc1 : bs2.length < 76
      · have hh : pushHeader bs2.length = [bs2.length] := by
          simp [pushHeader, hc1]
        rw [hh]
        have hrp : readPush bs2.length (bs2 ++ rest) = some (bs2, rest) := by
          unfold readPush
          rw [if_pos hc1]
          rw [if_neg (by simp only [List.length_append]; omega)]
          simp
        have := scriptDecompile_cons bs2.length (bs2 ++ rest) bs2 rest
          (by omega) hrp
        simpa using this
      · by_cases hc2 : bs2.length < 256
        · have hh : pushHeader bs2.length = [OP_PUSHDATA1, bs2.length] := by
            simp [pushHeader, hc1, hc2]
          rw [hh]
          have hrp : readPush OP_PUSHDATA1 (bs2.length :: (bs2 ++ rest)) =
              some (bs2, rest) := by
            unfold readPush
            rw [if_neg (by simp [OP_PUSHDATA1])]
            rw [if_pos (by simp [OP_PUSHDATA1])]
            show (if (bs2 ++ rest).length < bs2.length then none
              else some ((bs2 ++ rest).take bs2.length,
                (bs2 ++ rest).drop bs2.length)) = _
            rw [if_neg (by simp only [List.length_append]; omega)]
            simp
          have := scriptDecompile_cons OP_PUSHDATA1
            (bs2.length :: (bs2 ++ rest)) bs2 rest
            (by simp [OP_PUSHDATA1]) hrp
          simpa using this
        · by_cases hc3 : bs2.length < 65536
          · have hh : pushHeader bs2.length =
                [OP_PUSHDATA2, bs2.length % 256, bs2.length / 256 % 256] := by
              simp [pushHeader, hc1, hc2, hc3]
            rw [hh]
            have hrp : readPush OP_PUSHDATA2
                (bs2.length % 256 :: bs2.length / 256 % 256 :: (bs2 ++ rest)) =
                some (bs2, rest) := by
              unfold readPush
              rw [if_neg (by simp [OP_PUSHDATA2])]
              rw [if_neg (by simp [OP_PUSHDATA2])]
              rw [if_pos (by simp [OP_PUSHDATA2])]
              show (let n := bs2.length % 256 + 256 * (bs2.length / 256 % 256);
                if (bs2 ++ rest).length < n then none
                else some ((bs2 ++ rest).take n, (bs2 ++ rest).drop n)) = _
              have harith : bs2.length % 256 + 256 * (bs2.length / 256 % 256) =
                  bs2.length := by omega
              rw [harith]
              rw [if_neg (by simp only [List.length_append]; omega)]
              simp
            have := scriptDecompile_cons OP_PUSHDATA2
              (bs2.length % 256 :: bs2.length / 256 % 256 :: (bs2 ++ rest))
              bs2 rest (by simp [OP_PUSHDATA2]) hrp
            simpa using this
          · have hh : pushHeader bs2.length =
                [OP_PUSHDATA4, bs2.length % 256, bs2.length / 256 % 256,
                 bs2.length / 65536 % 256, bs2.length / 16777216 % 256] := by
              simp [pushHeader, hc1, hc2, hc3]
            rw [hh]
            have hrp : readPush OP_PUSHDATA4
                (bs2.length % 256 :: bs2.length / 256 % 256 ::
                 bs2.length / 65536 % 256 :: bs2.length / 16777216 % 256 ::
                 (bs2 ++ rest)) = some (bs2, rest) := by
              unfold readPush
              rw [if_neg (by simp [OP_PUSHDATA4])]
              rw [if_neg (by simp [OP_PUSHDATA4])]
              rw [if_neg (by simp [OP_PUSHDATA4])]
              show (let n := bs2.length % 256 + 256 * (bs2.length / 256 % 256) +
                  65536 * (bs2.length / 65536 % 256) +
                  16777216 * (bs2.length / 16777216 % 256);
                if (bs2 ++ rest).length < n then none
                else some ((bs2 ++ rest).take n, (bs2 ++ rest).drop n)) = _
              have harith : bs2.length % 256 + 256 * (bs2.length / 256 % 256) +
                  65536 * (bs2.length / 65536 % 256) +
                  16777216 * (bs2.length / 16777216 % 256) = bs2.length := by
                omega
              rw [harith]
              rw [if_neg (by simp only [List.length_append]; omega)]
              simp
            have := scriptDecompile_cons OP_PUSHDATA4
              (bs2.length % 256 :: bs2.length / 256 % 256 ::
               bs2.length / 65536 % 256 :: bs2.length / 16777216 % 256 ::
               (bs2 ++ rest)) bs2 rest (by simp [OP_PUSHDATA4]) hrp
            simpa using this

/-- A buffer of at least 2 bytes decompiles back to a data chunk. -/
theorem asMinimalItem_long (bs : Bytes) (h : 2 ≤ bs.length) :
    asMinimalItem bs = .data bs := by
  match bs, h with
  | b0 :: b1 :: tl, _ => rfl

/-- The preimage scan ignores opcode chunks. -/
theorem scanItems_op (e : Bytes) (c : Nat) (rest : List ScriptItem) :
    BitcoinHtlc.scanItems e (.op c :: rest) = BitcoinHtlc.scanItems e rest :=
  rfl

/-- The preimage scan ignores the chunk of a buffer that is not 32 bytes
long. -/
theorem scanItems_skip (e bs : Bytes) (rest : List ScriptItem)
    (h : bs.length ≠ 32) :
    BitcoinHtlc.scanItems e (asMinimalItem bs :: rest) =
      BitcoinHtlc.scanItems e rest := by
  match bs with
  | [] => rfl
  | [b] =>
      by_cases h1 : 1 ≤ b ∧ b ≤ 16
      · simp [asMinimalItem, h1, scanItems_op]
      · by_cases h2 : b = 0x81
        · simp [asMinimalItem, h1, h2, scanItems_op]
        · simp only [asMinimalItem, if_neg h1, if_neg h2]
          show BitcoinHtlc.scanItems e (.data [b] :: rest) = _
          simp [BitcoinHtlc.scanItems]
  | b0 :: b1 :: tl =>
      rw [asMinimalItem_long _ (by simp)]
      simp only [BitcoinHtlc.scanItems]
      rw [if_neg]
      intro hcon
      exact h hcon.1

/-- The preimage scan returns the matching 32-byte chunk, hex-encoded. -/
theorem scanItems_hit (e p : Bytes) (rest : List ScriptItem)
    (h32 : p.length = 32) (hh : sha256 p = e) :
    BitcoinHtlc.scanItems e (asMinimalItem p :: rest) =
      some (hexEncode p) := by
  rw [asMinimalItem_long _ (by omega)]
  simp [BitcoinHtlc.scanItems, h32, hh]

/-- When the funding check succeeds, it has set the record's status to
`funded`. -/
theorem verifySwapFunding_funded_status (swap : Swap)
    (bu mu : Option (List Utxo)) (rb rm : Nat)
    (h : (verifySwapFunding swap bu mu rb rm).fst.funded = true) :
    (verifySwapFunding swap bu mu rb rm).snd.status = "funded" := by
  unfold verifySwapFunding at h ⊢
  dsimp only at h ⊢
  rw [if_pos h]

/-- When the funding check fails, the record is untouched. -/
theorem verifySwapFunding_unfunded_id (swap : Swap)
    (bu mu : Option (List Utxo)) (rb rm : Nat)
    (h : (verifySwapFunding swap bu mu rb rm).fst.funded = false) :
    (verifySwapFunding swap bu mu rb rm).snd = swap := by
  unfold verifySwapFunding at h ⊢
  dsimp only at h ⊢
  rw [if_neg]
  rw [h]
  simp

/-- C2: the claim says `initiateSwap` completes without error on every
valid parameter set and returns an initialized record. Evaluating the
embedded function at a fully valid concrete input shows it instead throws:
it reads `hash.hash` on the digest buffer returned by `generateHashLock`
(which is `undefined`) and passes it to `Buffer.from`, which raises
`ERR_INVALID_ARG_TYPE` before any record is built. -/
theorem initiateSwap_always_throws :
    initiateSwap sampleParams 1700000000 samplePreimage (List.range 16) =
      Except.error
        "TypeError [ERR_INVALID_ARG_TYPE]: argument is undefined" := rfl

/-- C1: the active coordinator computes the asymmetric timelocks as the
claim states (alt `= T + D`, primary `= T + 2D`, at lines 57-60) but then
throws on `hash.hash` for every input, so no swap record is ever produced;
and the stub coordinator variant does return records, but their timeouts
mix `Date.now()` milliseconds with a seconds offset while `created_at` is
in seconds, violating both claimed equalities at a concrete clock value. -/
theorem initiateSwap_timelock_claim_fails :
    (∀ (params : SwapParams) (now : Nat) (preimageBytes idBytes : Bytes),
      initiateSwap params now preimageBytes idBytes =
        Except.error
          "TypeError [ERR_INVALID_ARG_TYPE]: argument is undefined")
    ∧ ((stubInitiateSwap sampleParams 1700000000000 samplePreimage
          (List.range 16)).timeouts.bitcoin -
        (stubInitiateSwap sampleParams 1700000000000 samplePreimage
          (List.range 16)).createdAt ≠
       2 * ((stubInitiateSwap sampleParams 1700000000000 samplePreimage
          (List.range 16)).timeouts.marscoin -
        (stubInitiateSwap sampleParams 1700000000000 samplePreimage
          (List.range 16)).createdAt))
    ∧ ((stubInitiateSwap sampleParams 1700000000000 samplePreimage
          (List.range 16)).timeouts.marscoin ≠
        (stubInitiateSwap sampleParams 1700000000000 samplePreimage
          (List.range 16)).createdAt + sampleParams.timeoutDuration) :=
  ⟨fun _ _ _ _ => rfl, by decide, by decide⟩

/-- C8: the hash-preimage binding does hold inside `generateHashLock` —
its `hash` is by construction the SHA-256 of the drawn preimage — but no
swap record ever carries it: `initiateSwap` throws on `hash.hash` (whose
`toString('hex')` would also have been the record's `hash` field) before
constructing the record, for every input. -/
theorem generateHashLock_binding_no_record :
    (∀ preimageBytes : Bytes,
      (generateHashLock preimageBytes).hash = sha256 preimageBytes ∧
      (generateHashLock preimageBytes).preimage = hexEncode preimageBytes)
    ∧ (∀ (params : SwapParams) (now : Nat) (preimageBytes idBytes : Bytes),
        ∃ e, initiateSwap params now preimageBytes idBytes =
          Except.error e) :=
  ⟨fun _ => ⟨rfl, rfl⟩, fun _ _ _ _ => ⟨_, rfl⟩⟩

/-- C5 counterexample: with `input_value = 900` and `fee = 500` the
Bitcoin claim builder does not fail with any underfunded error — it
returns a transaction whose single output carries `400` units, below the
`546` dust threshold the claim names. -/
theorem claimHtlc_900_500_builds_dust_output :
    ((BitcoinHtlc.claimHtlcWithPreimage "aa11" 0 (List.replicate 90 3)
        samplePreimage sampleKey "dest" 900 500).outs.map (fun o => o.value))
      = [400]
    ∧ (400 : ℚ) < 546 := by
  constructor
  · simp only [BitcoinHtlc.claimHtlcWithPreimage, List.map_cons, List.map_nil]
    norm_num
  · norm_num

/-- C5 amended: neither claim builder performs any underfunding or dust
check; on every input each returns a transaction with the single output
value `amount - fee`, whatever that is. -/
theorem claimHtlc_output_unchecked :
    ∀ (htlcTxId : String) (htlcVout : Nat) (redeemScript preimage : Bytes)
      (key : SigningKey) (dest : String) (amount fee : ℚ),
      (BitcoinHtlc.claimHtlcWithPreimage htlcTxId htlcVout redeemScript
        preimage key dest amount fee).outs =
        [{ script := toOutputScript dest, value := amount - fee }]
      ∧ (MarscoinHtlc.claimHtlcWithPreimage htlcTxId htlcVout redeemScript
          preimage dest amount fee).outputs =
        [{ scriptPubKey := MarscoinLib.mockOutputScript,
           value := amount - fee }] :=
  fun _ _ _ _ _ _ _ _ => ⟨rfl, rfl⟩

/-- C10 counterexample: when the caller supplies no MarsCoin fee,
`completeSwap` hands the alt-chain claim builder the fee `0.001` — not an
unsigned integer in minor units — and the built transaction's output value
`10 - 0.001 = 9999/1000` is not an integer; the configuration default
`0.0001` is fractional too. -/
theorem marscoin_fee_not_integer :
    completeSwapMarscoinFee {} = 1 / 1000
    ∧ (completeSwapMarscoinFee {}).den ≠ 1
    ∧ defaultConfigFees.marscoinFee.den ≠ 1
    ∧ ((MarscoinHtlc.claimHtlcWithPreimage "aa" 0 [] samplePreimage "pm" 10
        (completeSwapMarscoinFee {})).outputs.map (fun o => o.value))
      = [9999 / 1000]
    ∧ ((9999 : ℚ) / 1000).den ≠ 1 := by
  have h1 : completeSwapMarscoinFee {} = 1 / 1000 := rfl
  have h2 : defaultConfigFees.marscoinFee = 1 / 10000 := rfl
  refine ⟨rfl, ?_, ?_, ?_, ?_⟩
  · rw [h1]; norm_num
  · rw [h2]; norm_num
  · simp only [MarscoinHtlc.claimHtlcWithPreimage, h1, List.map_cons,
      List.map_nil]
    norm_num
  · norm_num

/-- C10 amended: the Bitcoin-side fee default is the integer `1000`
satoshis, but the MarsCoin-side defaults are the fractional whole-coin
values `0.001` (coordinator) and `0.0001` (configuration); the builders do
exact `ℚ` arithmetic `amount - fee` on whatever they are given, so
non-integer values reach the alt-chain transaction builder. -/
theorem fee_defaults_and_exact_arithmetic :
    (completeSwapBtcFee {} = 1000 ∧ (completeSwapBtcFee {}).den = 1
      ∧ defaultConfigFees.bitcoinFee.den = 1)
    ∧ (completeSwapMarscoinFee {} = 1 / 1000
      ∧ (completeSwapMarscoinFee {}).den = 1000
      ∧ defaultConfigFees.marscoinFee.den = 10000)
    ∧ (∀ (txid : String) (vout : Nat) (rs pre : Bytes) (key : SigningKey)
        (dest : String) (amount fee : ℚ),
        ((BitcoinHtlc.claimHtlcWithPreimage txid vout rs pre key dest amount
            fee).outs.map (fun o => o.value)) = [amount - fee]
        ∧ ((MarscoinHtlc.claimHtlcWithPreimage txid vout rs pre dest amount
            fee).outputs.map (fun o => o.value)) = [amount - fee]) := by
  have h1 : completeSwapBtcFee {} = 1000 := rfl
  have h2 : completeSwapMarscoinFee {} = 1 / 1000 := rfl
  have h3 : defaultConfigFees.bitcoinFee = 1000 := rfl
  have h4 : defaultConfigFees.marscoinFee = 1 / 10000 := rfl
  refine ⟨⟨h1, by rw [h1]; norm_num, by rw [h3]; norm_num⟩,
    ⟨h2, by rw [h2]; norm_num, by rw [h4]; norm_num⟩,
    fun _ _ _ _ _ _ _ _ => ⟨rfl, rfl⟩⟩

/-- C3 counterexample: on the MarsCoin chain, `createHtlc` at the spec's
scenario-E inputs (32 zero bytes, timelock `500000`, 33-byte keys) does
not return the claimed byte-for-byte redeem script: its key-hash pushes
are plain RIPEMD-160 of the key, and the mock library's `compile` then
discards the chunks entirely, returning the constant
`"mock_compiled_script"`. -/
theorem marscoin_redeemScript_not_spec_layout :
    (MarscoinHtlc.createHtlc (List.replicate 32 0) 500000
        (List.replicate 33 2) (List.replicate 33 3)).redeemScript ≠
      hexEncode (specHtlcRedeemScript (List.replicate 32 0) 500000
        (List.replicate 33 2) (List.replicate 33 3)) := by decide

/-- C3 amended: the Bitcoin-side `createHtlc` returns byte-for-byte the
claimed redeem-script layout, with `HASH160 = RIPEMD160(SHA-256(.))`; the
MarsCoin-side `createHtlc` instead returns the mock library's constant
compile output (and its chunk list, had it been compiled, hashes keys with
plain RIPEMD-160 and truncates the timelock to one byte). -/
theorem createHtlc_redeemScript_layout (hashLock : Bytes) (timelock : Nat)
    (claimPubKey refundPubKey : Bytes) (hhash : hashLock.length = 32)
    (ht : timelock ≠ 0) :
    (BitcoinHtlc.createHtlc hashLock timelock claimPubKey
        refundPubKey).redeemScript =
      hexEncode (specHtlcRedeemScript hashLock timelock claimPubKey
        refundPubKey)
    ∧ (MarscoinHtlc.createHtlc hashLock timelock claimPubKey
        refundPubKey).redeemScript =
      hexEncode MarscoinLib.mockCompiledScript := by
  refine ⟨?_, rfl⟩
  have hscript : scriptCompile (BitcoinHtlc.createHtlcItems hashLock
      timelock claimPubKey refundPubKey) =
      specHtlcRedeemScript hashLock timelock claimPubKey refundPubKey := by
    unfold scriptCompile BitcoinHtlc.createHtlcItems specHtlcRedeemScript
    simp only [List.flatMap_cons, List.flatMap_nil, compileItem]
    rw [pushEncode_mid hashLock (by omega) (by omega),
      pushEncode_mid (hash160 claimPubKey)
        (by rw [hash160_length]; omega) (by rw [hash160_length]; omega),
      pushEncode_mid (hash160 refundPubKey)
        (by rw [hash160_length]; omega) (by rw [hash160_length]; omega),
      hhash, hash160_length, hash160_length]
    simp
  show hexEncode (scriptCompile (BitcoinHtlc.createHtlcItems hashLock
      timelock claimPubKey refundPubKey)) = _
  rw [hscript]

/-- Witness for the amended C3 theorem at the scenario-E inputs. -/
theorem createHtlc_redeemScript_layout_witness :
    (BitcoinHtlc.createHtlc (List.replicate 32 0) 500000
        (List.replicate 33 2) (List.replicate 33 3)).redeemScript =
      hexEncode (specHtlcRedeemScript (List.replicate 32 0) 500000
        (List.replicate 33 2) (List.replicate 33 3)) :=
  (createHtlc_redeemScript_layout (List.replicate 32 0) 500000
    (List.replicate 33 2) (List.replicate 33 3) (by decide) (by decide)).1

/-- C6 counterexample: both chains hold a UTXO with sufficient amount and
sufficient confirmations (`t2` and `t3`), so the claimed
existential predicate is satisfied — yet the check reports unfunded and
leaves the record untouched, because on the Bitcoin side it committed to
the first amount-sufficient UTXO `t1`, whose confirmation count is 0. -/
theorem verifySwapFunding_misses_later_utxo :
    ((verifySwapFunding testSwap
        (some [{ txid := "t1", amount := 100000, confirmations := 0 },
               { txid := "t2", amount := 100000, confirmations := 5 }])
        (some [{ txid := "t3", amount := 10, confirmations := 5 }])
        1 1).fst.funded = false)
    ∧ (∃ u ∈ [({ txid := "t1", amount := 100000, confirmations := 0 } : Utxo),
               { txid := "t2", amount := 100000, confirmations := 5 }],
        testSwap.amounts.btc ≤ u.amount ∧ 1 ≤ u.confirmations)
    ∧ (∃ u ∈ [({ txid := "t3", amount := 10, confirmations := 5 } : Utxo)],
        testSwap.amounts.marscoin ≤ u.amount ∧ 1 ≤ u.confirmations)
    ∧ ((verifySwapFunding testSwap
        (some [{ txid := "t1", amount := 100000, confirmations := 0 },
               { txid := "t2", amount := 100000, confirmations := 5 }])
        (some [{ txid := "t3", amount := 10, confirmations := 5 }])
        1 1).snd.status = "initialized") := by
  refine ⟨rfl, ?_, ?_, rfl⟩
  · refine ⟨{ txid := "t2", amount := 100000, confirmations := 5 }, by simp, by norm_num [testSwap], by norm_num⟩
  · refine ⟨{ txid := "t3", amount := 10, confirmations := 5 }, by simp, by norm_num [testSwap], by norm_num⟩

/-- C6 amended: `verifySwapFunding` reports funded — and then stamps the
record `funded` — if and only if, on each chain, the first UTXO with
sufficient amount (in the client's listing order) also has enough
confirmations for that chain; this implies, but is not implied by, the
claimed "some UTXO satisfies both" predicate, and on a negative report the
record is returned unchanged. -/
theorem verifySwapFunding_first_match_semantics (swap : Swap)
    (bu mu : List Utxo) (rb rm : Nat) :
    ((verifySwapFunding swap (some bu) (some mu) rb rm).fst.funded = true ↔
      ((∃ u, findFundingUtxo bu swap.amounts.btc = some u ∧
          rb ≤ u.confirmations)
       ∧ (∃ u, findFundingUtxo mu swap.amounts.marscoin = some u ∧
          rm ≤ u.confirmations)))
    ∧ ((verifySwapFunding swap (some bu) (some mu) rb rm).fst.funded = true →
        (verifySwapFunding swap (some bu) (some mu) rb rm).snd.status =
          "funded")
    ∧ ((verifySwapFunding swap (some bu) (some mu) rb rm).fst.funded = false →
        (verifySwapFunding swap (some bu) (some mu) rb rm).snd = swap)
    ∧ ((verifySwapFunding swap (some bu) (some mu) rb rm).fst.funded = true →
        (∃ u ∈ bu, swap.amounts.btc ≤ u.amount ∧ rb ≤ u.confirmations)
        ∧ (∃ u ∈ mu, swap.amounts.marscoin ≤ u.amount ∧
            rm ≤ u.confirmations)) := by
  refine ⟨?_, verifySwapFunding_funded_status swap _ _ rb rm,
    verifySwapFunding_unfunded_id swap _ _ rb rm, ?_⟩
  · unfold verifySwapFunding
    dsimp only
    rcases hfb : findFundingUtxo bu swap.amounts.btc with _ | ub <;>
      rcases hfm : findFundingUtxo mu swap.amounts.marscoin with _ | um <;>
        simp [hfb, hfm]
  · intro h
    unfold verifySwapFunding at h
    dsimp only at h
    simp only [Option.getD_some] at h
    rcases hfb : findFundingUtxo bu swap.amounts.btc with _ | ub <;>
      rcases hfm : findFundingUtxo mu swap.amounts.marscoin with _ | um <;>
        simp only [hfb, hfm] at h <;> simp at h
    have hfb2 : bu.find? (fun u => decide (swap.amounts.btc ≤ u.amount)) =
        some ub := hfb
    have hfm2 : mu.find?
        (fun u => decide (swap.amounts.marscoin ≤ u.amount)) = some um := hfm
    have hmemb : ub ∈ bu := List.mem_of_find?_eq_some hfb2
    have hmemm : um ∈ mu := List.mem_of_find?_eq_some hfm2
    have hpb : swap.amounts.btc ≤ ub.amount := by
      have h5 := List.find?_some hfb2
      simpa using h5
    have hpm : swap.amounts.marscoin ≤ um.amount := by
      have h5 := List.find?_some hfm2
      simpa using h5
    exact ⟨⟨ub, hmemb, hpb, h.1⟩, ⟨um, hmemm, hpm, h.2⟩⟩

/-- Witness for the amended C6 theorem: a fully funded concrete scenario
flips the record to `funded`. -/
theorem verifySwapFunding_first_match_semantics_witness :
    (verifySwapFunding testSwap
      (some [{ txid := "tb", amount := 100000, confirmations := 3 }])
      (some [{ txid := "tm", amount := 10, confirmations := 3 }])
      1 1).snd.status = "funded" :=
  (verifySwapFunding_first_match_semantics testSwap
    [{ txid := "tb", amount := 100000, confirmations := 3 }]
    [{ txid := "tm", amount := 10, confirmations := 3 }] 1 1).2.1 (by decide)

/-- On a successful funding check, only `status` and `fundingTxIds` are
touched; the other record fields survive. -/
theorem verifySwapFunding_funded_fields (swap : Swap)
    (bu mu : Option (List Utxo)) (rb rm : Nat)
    (h : (verifySwapFunding swap bu mu rb rm).fst.funded = true) :
    (verifySwapFunding swap bu mu rb rm).snd.bitcoinClaimTxId =
      swap.bitcoinClaimTxId
    ∧ (verifySwapFunding swap bu mu rb rm).snd.marscoinClaimTxId =
      swap.marscoinClaimTxId
    ∧ (verifySwapFunding swap bu mu rb rm).snd.completedAt =
      swap.completedAt
    ∧ (verifySwapFunding swap bu mu rb rm).snd.preimage = swap.preimage
    ∧ (verifySwapFunding swap bu mu rb rm).snd.amounts = swap.amounts
    ∧ (verifySwapFunding swap bu mu rb rm).snd.timeouts = swap.timeouts := by
  unfold verifySwapFunding at h ⊢
  dsimp only at h ⊢
  rw [if_pos h]
  exact ⟨rfl, rfl, rfl, rfl, rfl, rfl⟩

/-- C4 counterexample: a fully funded swap, no Bitcoin key supplied, an
alt-side (MarsCoin) broadcast that succeeds: no primary-chain claim is
ever broadcast, yet `completeSwap` marks the record `completed`. -/
theorem completeSwap_completed_by_alt_only :
    ((completeSwap testSwap
        (some [{ txid := "tb", amount := 100000, confirmations := 3 }])
        (some [{ txid := "tm", amount := 10, confirmations := 3 }])
        (fun _ => none) (fun _ => some "mrsclaim")
        { participantMarscoinPrivateKey := some sampleKey }
        1700004000).fst.bitcoinClaimTxId = none)
    ∧ ((completeSwap testSwap
        (some [{ txid := "tb", amount := 100000, confirmations := 3 }])
        (some [{ txid := "tm", amount := 10, confirmations := 3 }])
        (fun _ => none) (fun _ => some "mrsclaim")
        { participantMarscoinPrivateKey := some sampleKey }
        1700004000).fst.marscoinClaimTxId = some "mrsclaim")
    ∧ ((completeSwap testSwap
        (some [{ txid := "tb", amount := 100000, confirmations := 3 }])
        (some [{ txid := "tm", amount := 10, confirmations := 3 }])
        (fun _ => none) (fun _ => some "mrsclaim")
        { participantMarscoinPrivateKey := some sampleKey }
        1700004000).snd.status = "completed") := by
  refine ⟨rfl, rfl, rfl⟩

/-- C4 amended: once the inner funding check passes, `completeSwap` sets
the status to `completed` exactly when at least one claim broadcast — on
either chain — succeeded; the primary (Bitcoin) side is not required. -/
theorem completeSwap_completed_iff (swap : Swap)
    (bu mu : Option (List Utxo)) (btcSend : BtcTx → Option String)
    (marscoinSend : MarsTx → Option String) (cp : ClaimParams) (now : Nat)
    (hf : (verifySwapFunding swap bu mu 1 1).fst.funded = true) :
    ((completeSwap swap bu mu btcSend marscoinSend cp now).snd.status =
        "completed"
      ↔ (completeSwap swap bu mu btcSend marscoinSend cp now).fst.success =
        true)
    ∧ ((completeSwap swap bu mu btcSend marscoinSend cp now).fst.success =
        true
      ↔ ((completeSwap swap bu mu btcSend marscoinSend cp
            now).fst.bitcoinClaimTxId.isSome = true
         ∨ (completeSwap swap bu mu btcSend marscoinSend cp
            now).fst.marscoinClaimTxId.isSome = true)) := by
  have hst := verifySwapFunding_funded_status swap bu mu 1 1 hf
  unfold completeSwap
  dsimp only
  rw [if_neg (by rw [hf]; simp)]
  dsimp only
  by_cases hcase :
      ((match cp.initiatorBtcPrivateKey with
        | none => none
        | some key => btcSend (BitcoinHtlc.claimHtlcWithPreimage
            (((verifySwapFunding swap bu mu 1 1).snd.fundingBitcoin).getD "")
            0 (hexDecode (verifySwapFunding swap bu mu 1 1).snd.btcHtlc.redeemScript)
            (hexDecode (verifySwapFunding swap bu mu 1 1).snd.preimage) key
            (verifySwapFunding swap bu mu 1 1).snd.addresses.initiatorBtc
            (verifySwapFunding swap bu mu 1 1).snd.amounts.btc
            (completeSwapBtcFee cp))).isSome
       || (match cp.participantMarscoinPrivateKey with
        | none => none
        | some _ => marscoinSend (MarscoinHtlc.claimHtlcWithPreimage
            (((verifySwapFunding swap bu mu 1 1).snd.fundingMarscoin).getD "")
            0 (hexDecode (verifySwapFunding swap bu mu 1 1).snd.marscoinHtlc.redeemScript)
            (hexDecode (verifySwapFunding swap bu mu 1 1).snd.preimage)
            (verifySwapFunding swap bu mu 1 1).snd.addresses.participantMarscoin
            (verifySwapFunding swap bu mu 1 1).snd.amounts.marscoin
            (completeSwapMarscoinFee cp))).isSome) = true
  · simp only [hcase]
    simp [Bool.or_eq_true] at hcase ⊢
    exact hcase
  · simp only [Bool.not_eq_true] at hcase
    simp only [hcase]
    simp [Bool.or_eq_true] at hcase ⊢
    rw [hst]
    simp [hcase.1, hcase.2]

/-- Witness for the amended C4 theorem: at the alt-only scenario the
equivalence yields `completed`. -/
theorem completeSwap_completed_iff_witness :
    (completeSwap testSwap
      (some [{ txid := "tb", amount := 100000, confirmations := 3 }])
      (some [{ txid := "tm", amount := 10, confirmations := 3 }])
      (fun _ => none) (fun _ => some "mrsclaim")
      { participantMarscoinPrivateKey := some sampleKey }
      1700004000).snd.status = "completed" :=
  (completeSwap_completed_iff testSwap
    (some [{ txid := "tb", amount := 100000, confirmations := 3 }])
    (some [{ txid := "tm", amount := 10, confirmations := 3 }])
    (fun _ => none) (fun _ => some "mrsclaim")
    { participantMarscoinPrivateKey := some sampleKey }
    1700004000 (by decide)).1.mpr rfl

/-- C9 counterexample: a fully funded swap on which every claim attempt
comes back empty (no keys supplied): `completeSwap` reports failure, yet
the record is not left unchanged — the inner funding check has set
`status = "funded"` and `completeSwap` has stamped `completedAt`. -/
theorem completeSwap_failure_mutates_record :
    ((completeSwap testSwap
        (some [{ txid := "tb", amount := 100000, confirmations := 3 }])
        (some [{ txid := "tm", amount := 10, confirmations := 3 }])
        (fun _ => none) (fun _ => none) {} 1700004000).fst.success = false)
    ∧ ((completeSwap testSwap
        (some [{ txid := "tb", amount := 100000, confirmations := 3 }])
        (some [{ txid := "tm", amount := 10, confirmations := 3 }])
        (fun _ => none) (fun _ => none) {} 1700004000).snd.completedAt =
      some 1700004000)
    ∧ ((completeSwap testSwap
        (some [{ txid := "tb", amount := 100000, confirmations := 3 }])
        (some [{ txid := "tm", amount := 10, confirmations := 3 }])
        (fun _ => none) (fun _ => none) {} 1700004000).snd.status = "funded")
    ∧ ((completeSwap testSwap
        (some [{ txid := "tb", amount := 100000, confirmations := 3 }])
        (some [{ txid := "tm", amount := 10, confirmations := 3 }])
        (fun _ => none) (fun _ => none) {} 1700004000).snd ≠ testSwap) := by
  refine ⟨rfl, rfl, rfl, ?_⟩
  intro hcon
  have h2 : (completeSwap testSwap
      (some [{ txid := "tb", amount := 100000, confirmations := 3 }])
      (some [{ txid := "tm", amount := 10, confirmations := 3 }])
      (fun _ => none) (fun _ => none) {} 1700004000).snd.status =
      testSwap.status := by rw [hcon]
  rw [show (completeSwap testSwap
      (some [{ txid := "tb", amount := 100000, confirmations := 3 }])
      (some [{ txid := "tm", amount := 10, confirmations := 3 }])
      (fun _ => none) (fun _ => none) {} 1700004000).snd.status = "funded"
    from rfl] at h2
  exact absurd h2 (by decide)

/-- C9 amended: when the swap is not fully funded, `completeSwap` returns
the error with the record genuinely unchanged; but when it is funded and
no claim broadcast succeeds, the failure return still leaves the record
mutated — `status` has been advanced to `funded` by the inner check and
`completedAt` is overwritten with the current time — while the claim-txid
fields do stay untouched. -/
theorem completeSwap_failure_semantics :
    (∀ (swap : Swap) (bu mu : Option (List Utxo))
       (btcSend : BtcTx → Option String)
       (marscoinSend : MarsTx → Option String) (cp : ClaimParams) (now : Nat),
      (verifySwapFunding swap bu mu 1 1).fst.funded = false →
        (completeSwap swap bu mu btcSend marscoinSend cp now).fst.success =
          false
        ∧ (completeSwap swap bu mu btcSend marscoinSend cp now).fst.error =
          some "Swap is not fully funded and confirmed"
        ∧ (completeSwap swap bu mu btcSend marscoinSend cp now).snd = swap)
    ∧ (∀ (swap : Swap) (bu mu : Option (List Utxo))
       (btcSend : BtcTx → Option String)
       (marscoinSend : MarsTx → Option String) (cp : ClaimParams) (now : Nat),
      (verifySwapFunding swap bu mu 1 1).fst.funded = true →
      (∀ tx, btcSend tx = none) → (∀ tx, marscoinSend tx = none) →
        (completeSwap swap bu mu btcSend marscoinSend cp now).fst.success =
          false
        ∧ (completeSwap swap bu mu btcSend marscoinSend cp
            now).snd.completedAt = some now
        ∧ (completeSwap swap bu mu btcSend marscoinSend cp now).snd.status =
          "funded"
        ∧ (completeSwap swap bu mu btcSend marscoinSend cp
            now).snd.bitcoinClaimTxId = swap.bitcoinClaimTxId
        ∧ (completeSwap swap bu mu btcSend marscoinSend cp
            now).snd.marscoinClaimTxId = swap.marscoinClaimTxId) := by
  constructor
  · intro swap bu mu btcSend marscoinSend cp now hnf
    unfold completeSwap
    dsimp only
    rw [if_pos hnf]
    exact ⟨rfl, rfl, verifySwapFunding_unfunded_id swap bu mu 1 1 hnf⟩
  · intro swap bu mu btcSend marscoinSend cp now hf hbs hms
    have hst := verifySwapFunding_funded_status swap bu mu 1 1 hf
    have hfields := verifySwapFunding_funded_fields swap bu mu 1 1 hf
    obtain ⟨hbid, hmid, -, -, -, -⟩ := hfields
    obtain ⟨btcKey, mrsKey, bf, mf⟩ := cp
    unfold completeSwap
    dsimp only
    rw [if_neg (by rw [hf]; simp)]
    cases btcKey <;> cases mrsKey <;>
      dsimp only <;>
        simp [hbs, hms, hst, hbid, hmid]

/-- Witness for the amended C9 theorem: both failure modes at concrete
inputs — unfunded leaves the fixture untouched; funded-but-failed stamps
it `funded`. -/
theorem completeSwap_failure_semantics_witness :
    ((completeSwap testSwap (some []) (some []) (fun _ => none)
        (fun _ => none) {} 1700004000).snd = testSwap)
    ∧ ((completeSwap testSwap
        (some [{ txid := "tb", amount := 100000, confirmations := 3 }])
        (some [{ txid := "tm", amount := 10, confirmations := 3 }])
        (fun _ => none) (fun _ => none) {} 1700004000).snd.status =
      "funded") :=
  ⟨(completeSwap_failure_semantics.1 testSwap (some []) (some [])
      (fun _ => none) (fun _ => none) {} 1700004000 (by decide)).2.2,
   (completeSwap_failure_semantics.2 testSwap
      (some [{ txid := "tb", amount := 100000, confirmations := 3 }])
      (some [{ txid := "tm", amount := 10, confirmations := 3 }])
      (fun _ => none) (fun _ => none) {} 1700004000 (by decide)
      (fun _ => rfl) (fun _ => rfl)).2.2.1⟩

/-- C7: preimage-extraction round trip. Any claim transaction the Bitcoin
builder constructs from a 32-byte preimage `p` yields `Some(hex p)` when
scanned against `SHA-256(p)`; any refund transaction it constructs yields
`None` for every expected hash. The hypotheses say the other script-sig
pushes (DER signature with sighash byte, public key, redeem script) are
not themselves 32 bytes long — true of every well-formed signature,
33/65-byte key, and HTLC redeem script — and are shorter than `2^32`. -/
theorem extractPreimage_roundtrip :
    (∀ (txid : String) (vout : Nat) (rs p : Bytes) (key : SigningKey)
       (dest : String) (amount fee : ℚ),
      p.length = 32 →
      key.signatureDER.length + 1 ≠ 32 →
      key.publicKey.length ≠ 32 →
      rs.length ≠ 32 →
      key.signatureDER.length + 1 < 4294967296 →
      key.publicKey.length < 4294967296 →
      rs.length < 4294967296 →
      BitcoinHtlc.extractPreimageFromBitcoinTx
        (BitcoinHtlc.claimHtlcWithPreimage txid vout rs p key dest amount
          fee) (sha256 p) = some (hexEncode p))
    ∧ (∀ (txid : String) (vout : Nat) (rs : Bytes) (key : SigningKey)
       (refundAddr : String) (amount fee : ℚ) (locktime : Nat)
       (expectedHash : Bytes),
      key.signatureDER.length + 1 ≠ 32 →
      key.publicKey.length ≠ 32 →
      rs.length ≠ 32 →
      key.signatureDER.length + 1 < 4294967296 →
      key.publicKey.length < 4294967296 →
      rs.length < 4294967296 →
      BitcoinHtlc.extractPreimageFromBitcoinTx
        (BitcoinHtlc.refundHtlcAfterTimeout txid vout rs key refundAddr
          amount fee locktime) expectedHash = none) := by
  constructor
  · intro txid vout rs p key dest amount fee h32 hs hpk hrs bs bpk brs
    have hdec : scriptDecompile (scriptCompile
        [.data (key.signatureDER ++ [0x01]), .data key.publicKey, .data p,
         .op OP_TRUE, .data rs]) =
        some [asMinimalItem (key.signatureDER ++ [0x01]),
              asMinimalItem key.publicKey, asMinimalItem p,
              .op OP_TRUE, asMinimalItem rs] := by
      unfold scriptCompile
      simp only [List.flatMap_cons, List.flatMap_nil, compileItem]
      rw [scriptDecompile_push _ _ (by simpa using bs),
        scriptDecompile_push _ _ bpk,
        scriptDecompile_push _ _ (by omega),
        List.singleton_append,
        scriptDecompile_op OP_TRUE _ (by decide),
        scriptDecompile_push _ _ brs,
        scriptDecompile_nil]
      rfl
    show BitcoinHtlc.scanIns (sha256 p) _ = _
    unfold BitcoinHtlc.claimHtlcWithPreimage
    dsimp only
    unfold BitcoinHtlc.scanIns
    rw [hdec]
    dsimp only
    rw [scanItems_skip _ _ _ (by simpa using hs),
      scanItems_skip _ _ _ hpk,
      scanItems_hit _ _ _ h32 rfl]
  · intro txid vout rs key refundAddr amount fee locktime expectedHash hs
      hpk hrs bs bpk brs
    have hdec : scriptDecompile (scriptCompile
        [.data (key.signatureDER ++ [0x01]), .data key.publicKey,
         .op OP_FALSE, .data rs]) =
        some [asMinimalItem (key.signatureDER ++ [0x01]),
              asMinimalItem key.publicKey, .op OP_FALSE,
              asMinimalItem rs] := by
      unfold scriptCompile
      simp only [List.flatMap_cons, List.flatMap_nil, compileItem]
      rw [scriptDecompile_push _ _ (by simpa using bs),
        scriptDecompile_push _ _ bpk,
        List.singleton_append,
        scriptDecompile_op OP_FALSE _ (by decide),
        scriptDecompile_push _ _ brs,
        scriptDecompile_nil]
      rfl
    show BitcoinHtlc.scanIns expectedHash _ = _
    unfold BitcoinHtlc.refundHtlcAfterTimeout
    dsimp only
    unfold BitcoinHtlc.scanIns
    rw [hdec]
    dsimp only
    rw [scanItems_skip _ _ _ (by simpa using hs),
      scanItems_skip _ _ _ hpk,
      scanItems_op,
      scanItems_skip _ _ _ hrs]
    rfl

set_option maxRecDepth 100000 in
/-- Witness for C7 at concrete inputs: a 70-byte signature, 33-byte key,
and the real 95-byte Bitcoin HTLC redeem script of the fixture data. -/
theorem extractPreimage_roundtrip_witness :
    (BitcoinHtlc.extractPreimageFromBitcoinTx
      (BitcoinHtlc.claimHtlcWithPreimage "aa11" 0
        (hexDecode (BitcoinHtlc.createHtlc (sha256 samplePreimage)
          1700007200 (List.replicate 33 2) (List.replicate 33 3)).redeemScript)
        samplePreimage sampleKey "dest" 900 500)
      (sha256 samplePreimage) = some (hexEncode samplePreimage))
    ∧ (BitcoinHtlc.extractPreimageFromBitcoinTx
        (BitcoinHtlc.refundHtlcAfterTimeout "aa11" 0
          (hexDecode (BitcoinHtlc.createHtlc (sha256 samplePreimage)
            1700007200 (List.replicate 33 2)
            (List.replicate 33 3)).redeemScript)
          sampleKey "refund" 900 500 1700007200)
        (sha256 samplePreimage) = none) :=
  ⟨extractPreimage_roundtrip.1 "aa11" 0 _ samplePreimage sampleKey "dest"
    900 500 (by decide) (by decide) (by decide) (by decide) (by decide)
    (by decide) (by decide),
   extractPreimage_roundtrip.2 "aa11" 0 _ sampleKey "refund" 900 500
    1700007200 (sha256 samplePreimage) (by decide) (by decide) (by decide)
    (by decide) (by decide) (by decide)⟩
